import Mathlib

/-!
Shallow embedding of the db-meta metadata-extraction library (src/modal.rs,
src/error.rs, src/meta.rs, src/mysql_meta.rs, src/pg_meta.rs).

Database round-trips are modelled by passing in, for each catalog query a
provider issues, the (already decoded) row list that query returned, wrapped
in `Except MetaError` so that a failing catalog call is representable.
Rust's in-place mutation of the `Vec<TableInfo>` threaded through the
pipeline stages becomes explicit state passing: each stage takes the current
list and returns the updated one.
-/

namespace DbMeta

/-- `error.rs`: `MetaError` (`BadRequest`, `DbException`, `InvalidArgument`). -/
inductive MetaError where
  | BadRequest (msg : String)
  | DbException (msg : String)
  | InvalidArgument (msg : String)
  deriving DecidableEq, Repr

/-- `modal.rs`: `FieldTypeEnum`. -/
inductive FieldTypeEnum where
  | String
  | Long
  | Integer
  | Float
  | Double
  | Boolean
  | ByteArray
  | Character
  | Object
  | Date
  | Time
  | Blob
  | Clob
  | Timestamp
  | BigInt
  | BigDec
  | LocalDate
  | LocalTime
  | LocalDateTime
  deriving DecidableEq, Repr

/-- Rust `str::to_uppercase`, restricted to the per-character (ASCII) case
mapping, which is all that type codes exercise. -/
def strToUpper (s : String) : String := String.mk (s.toList.map Char.toUpper)

/-- Rust `str::to_lowercase`, same restriction as `strToUpper`. -/
def strToLower (s : String) : String := String.mk (s.toList.map Char.toLower)

/-- Helper for `strContains`: does `pat` occur as a contiguous run of `l`? -/
def infixCheck (pat : List Char) : List Char → Bool
  | [] => pat.isEmpty
  | c :: cs => pat.isPrefixOf (c :: cs) || infixCheck pat cs

/-- Rust `str::contains`: substring containment test. -/
def strContains (s pat : String) : Bool :=
  infixCheck pat.toList s.toList

/-- `modal.rs` `FieldTypeEnum::pg_field_type`: the guarded `match` over
`code.to_lowercase()` translated into the same first-match-wins chain. -/
def pg_field_type (code : String) : FieldTypeEnum :=
  let db_type := strToLower code
  if strContains db_type "char" || strContains db_type "text" then .String
  else if strContains db_type "bigint" then .Long
  else if strContains db_type "int" then .Integer
  else if strContains db_type "date" || strContains db_type "time"
       || strContains db_type "year" then .Date
  else if strContains db_type "bit" || db_type == "bool"
       || strContains db_type "boolean" then .Boolean
  else if strContains db_type "decimal" then .BigDec
  else if strContains db_type "clob" then .Clob
  else if strContains db_type "blob" then .ByteArray
  else if strContains db_type "float" then .Float
  else if strContains db_type "double" then .Double
  else if strContains db_type "json" || strContains db_type "enum" then .String
  else .String

/-- `modal.rs` `FieldTypeEnum::mysql_field_type`: the `match` over
`code.to_uppercase()`; a `|`-pattern of several literals becomes a
membership test on the list of those literals. -/
def mysql_field_type (code : String) : FieldTypeEnum :=
  let u := strToUpper code
  if u = "BIT" then .Boolean
  else if u ∈ ["TINYINT", "TINYINT UNSIGNED", "SMALLINT [UNSIGNED]",
               "MEDIUMINT [UNSIGNED]", "INTEGER"] then .Integer
  else if u ∈ ["INTEGER UNSIGNED", "BIGINT"] then .Long
  else if u = "BIGINT UNSIGNED" then .BigInt
  else if u = "FLOAT" then .Float
  else if u = "DOUBLE" then .Double
  else if u = "DECIMAL" then .BigDec
  else if u = "DATE" then .Date
  else if u = "DATETIME" then .LocalDateTime
  else if u = "TIMESTAMP" then .Timestamp
  else if u = "TIME" then .Time
  else if u ∈ ["BINARY", "VARBINARY", "BLOB", "TINYBLOB", "MEDIUMBLOB",
               "LONGBLOB", "GEOMETRY"] then .ByteArray
  else .String

/-- All type codes that match a non-default arm of `mysql_field_type`. -/
def mysqlMatchedCodes : List String :=
  ["BIT",
   "TINYINT", "TINYINT UNSIGNED", "SMALLINT [UNSIGNED]",
   "MEDIUMINT [UNSIGNED]", "INTEGER",
   "INTEGER UNSIGNED", "BIGINT",
   "BIGINT UNSIGNED",
   "FLOAT", "DOUBLE", "DECIMAL",
   "DATE", "DATETIME", "TIMESTAMP", "TIME",
   "BINARY", "VARBINARY", "BLOB", "TINYBLOB", "MEDIUMBLOB",
   "LONGBLOB", "GEOMETRY"]

/-- Rust `str::starts_with`. -/
def strStartsWith (s pat : String) : Bool :=
  pat.toList.isPrefixOf s.toList

/-- Rust `str::split(",")` (keeps empty pieces, `""` yields `[""]`). -/
def splitCommaAux : List Char → List Char → List String
  | [], acc => [String.mk acc.reverse]
  | c :: cs, acc =>
    if c = ',' then String.mk acc.reverse :: splitCommaAux cs []
    else splitCommaAux cs (c :: acc)

/-- Rust `str::split(",")` on a string. -/
def strSplitComma (s : String) : List String :=
  splitCommaAux s.toList []

/-- Rust `x as i32` on a wider integer: two's-complement truncation. -/
def i32cast (x : Int) : Int := (x + 2 ^ 31) % 2 ^ 32 - 2 ^ 31

/-- `modal.rs`: `DbType`. -/
inductive DbType where
  | MySql
  | Postgresql
  | MariaDb
  | Sqlite
  deriving DecidableEq, Repr

/-- `modal.rs`: `ConnConfig`. -/
structure ConnConfig where
  url : String
  port : Nat
  username : String
  password : String
  database : String
  schema : Option String
  db_type : DbType
  deriving DecidableEq, Repr

/-- `modal.rs`: `ConnConfig::validate`. -/
def ConnConfig.validate (c : ConnConfig) : Except MetaError Unit :=
  if c.username.isEmpty then .error (.InvalidArgument "用户名不能为空")
  else if c.password.isEmpty then .error (.InvalidArgument "密码不能为空")
  else if c.url.isEmpty then .error (.InvalidArgument "地址不能为空")
  else if c.database.isEmpty then .error (.InvalidArgument "数据库不能为空")
  else .ok ()

/-- `modal.rs`: `IndexInfo`. -/
structure IndexInfo where
  column_name : String
  index_name : String
  index_def : String
  is_unique : Bool
  deriving DecidableEq, Repr

/-- `modal.rs`: `Column`. -/
structure Column where
  name : String
  column_type : FieldTypeEnum
  type_name : String
  length : Int
  digit : Option Int
  is_nullable : Bool
  comment : Option String
  auto_increment : Option Bool
  column_def : Option String
  is_pk : Bool
  deriving DecidableEq, Repr

/-- `modal.rs`: `TableInfo`. -/
structure TableInfo where
  schema : String
  table_name : String
  comment : Option String
  pk_name : String
  pk_column : String
  index_columns : List IndexInfo
  columns : List Column
  deriving DecidableEq, Repr

/-- `modal.rs`: `TableInfo::new` (remaining fields `Default::default()`). -/
def TableInfo.new (schema table_name : String) (comment : Option String) :
    TableInfo :=
  { schema := schema, table_name := table_name, comment := comment,
    pk_name := "", pk_column := "", index_columns := [], columns := [] }

/-- `modal.rs`: `ViewsInfo`. -/
structure ViewsInfo where
  schema : String
  view_name : String
  columns : List Column
  deriving DecidableEq, Repr

/-- `modal.rs`: `ViewsInfo::new`. -/
def ViewsInfo.new (schema view_name : String) : ViewsInfo :=
  { schema := schema, view_name := view_name, columns := [] }

/-- `modal.rs`: `Metadata`. -/
structure Metadata where
  tables : List TableInfo
  views : List ViewsInfo
  deriving DecidableEq, Repr

/-! ### HashMap model

The providers use `std::collections::HashMap` in two ways only: collecting an
iterator of pairs (later pairs overwrite earlier ones) followed by `get`, and
the `entry(k).or_insert_with(Vec::new).push(v)` pattern followed by `get`.
Both are modelled on association lists, keeping insertion semantics exact. -/

/-- Lookup in a `HashMap` built by `collect()` from a pair list: the LAST
binding of a key wins, as later inserts overwrite earlier ones. -/
def hmLookup : List (String × α) → String → Option α
  | [], _ => none
  | p :: rest, k =>
    match hmLookup rest k with
    | some v => some v
    | none => if p.1 = k then some p.2 else none

/-- `map.entry(k).or_insert_with(Vec::new).push(a)` on an association list
with pairwise-distinct keys. -/
def alInsertPush : List (String × List α) → String → α → List (String × List α)
  | [], k, a => [(k, [a])]
  | (k', xs) :: rest, k, a =>
    if k' = k then (k', xs ++ [a]) :: rest
    else (k', xs) :: alInsertPush rest k a

/-- `map.get(k)` on an association list with pairwise-distinct keys. -/
def alGet : List (String × List α) → String → Option (List α)
  | [], _ => none
  | (k', xs) :: rest, k => if k' = k then some xs else alGet rest k

/-- Build the bucket map from the sequence of `(key, value)` pushes a
provider loop performs, in loop order. -/
def buildMap (ps : List (String × α)) : List (String × List α) :=
  ps.foldl (fun m p => alInsertPush m p.1 p.2) []

/-! ### MySQL provider (`mysql_meta.rs`)

Each stage takes the decoded rows its catalog query produced. Row structures
carry exactly the fields the source reads from the `sqlx` row (`EXTRA` is a
non-nullable catalog column, so the `Option<String>` read at index 8 is
modelled as `some extra`). -/

/-- A row of the `information_schema.TABLES` query (either filter). -/
structure MysqlTableRow where
  schema : String
  tableName : String
  comment : String
  deriving DecidableEq, Repr

/-- A row of the `KEY_COLUMN_USAGE` primary-key query. -/
structure MysqlPkRow where
  tableName : String
  columnName : String
  deriving DecidableEq, Repr

/-- A row of the grouped `information_schema.statistics` index query
(`columnsConcat` is the `GROUP_CONCAT(... ORDER BY seq_in_index)` value,
`nonUnique` the `CONVERT(NON_UNIQUE, char)` value). -/
structure MysqlIndexRow where
  schema : String
  tableName : String
  indexName : String
  columnsConcat : String
  nonUnique : String
  deriving DecidableEq, Repr

/-- A row of the `information_schema.COLUMNS` query. -/
structure MysqlColumnRow where
  tableName : String
  columnName : String
  dataType : String
  columnType : String
  charMaxLen : Option Int
  numericScale : Option Nat
  isNullable : String
  comment : String
  extra : String
  deriving DecidableEq, Repr

/-- `MysqlMeta::get_tables`. -/
def mysql_get_tables (rows : List MysqlTableRow) : List TableInfo :=
  rows.map fun r => TableInfo.new r.schema r.tableName (some r.comment)

/-- `MysqlMeta::set_primary_key`. -/
def mysql_set_primary_key (rows : List MysqlPkRow)
    (table_vec : List TableInfo) : List TableInfo :=
  let pk_map := rows.map fun r => (r.tableName, r.columnName)
  table_vec.map fun t =>
    match hmLookup pk_map t.table_name with
    | some name => { t with pk_column := name }
    | none => t

/-- `MysqlMeta::set_index_key`, inner loop body: one grouped row is split
back on `','` into one `IndexInfo` per member column (empty `index_def`;
unique iff the `NON_UNIQUE` text is `"0"`), in split order. -/
def mysql_index_infos_of_row (r : MysqlIndexRow) : List IndexInfo :=
  (strSplitComma r.columnsConcat).map fun ele =>
    IndexInfo.mk ele r.indexName "" (r.nonUnique == "0")

/-- `MysqlMeta::set_index_key`: the per-row `IndexInfo`s are pushed under
the row's table name in row-then-split order. -/
def mysql_set_index_key (rows : List MysqlIndexRow)
    (table_vec : List TableInfo) : List TableInfo :=
  let index_map := buildMap (rows.flatMap fun r =>
    (mysql_index_infos_of_row r).map fun x => (r.tableName, x))
  table_vec.map fun t =>
    match alGet index_map t.table_name with
    | some indexes => { t with index_columns := indexes }
    | none => t

/-- `MysqlMeta::get_columns`, loop body: the `Column` built from one
catalog row (`pk_map` is the caller-supplied table-name → pk-column map). -/
def mysql_column_of_row (pk_map : List (String × String))
    (r : MysqlColumnRow) : Column :=
  let comment := if r.comment.isEmpty then none else some r.comment
  let auto_increment := (some r.extra).map fun x =>
    strToLower x == "auto_increment"
  let column_def := if r.extra.isEmpty then none else some r.extra
  let length := (r.charMaxLen.getD (-1))
  let digit : Option Nat :=
    if strToUpper r.dataType ∈ ["DECIMAL", "FLOAT", "DOUBLE"] then
      r.numericScale
    else none
  let is_pk := hmLookup pk_map r.tableName == some r.columnName
  Column.mk r.columnName (mysql_field_type r.dataType) r.dataType
    (i32cast length) (digit.map fun x => i32cast (Int.ofNat x))
    (r.isNullable == "YES") comment auto_increment column_def is_pk

/-- `MysqlMeta::get_columns`: builds the table-name → column-list map. -/
def mysql_get_columns (rows : List MysqlColumnRow)
    (pk_map : List (String × String)) : List (String × List Column) :=
  buildMap (rows.map fun r => (r.tableName, mysql_column_of_row pk_map r))

/-- `MysqlMeta::set_columns`. -/
def mysql_set_columns (rows : List MysqlColumnRow)
    (table_vec : List TableInfo) : List TableInfo :=
  let pk_map := (table_vec.filter fun t => !t.pk_column.isEmpty).map
    fun t => (t.table_name, t.pk_column)
  let column_map := mysql_get_columns rows pk_map
  table_vec.map fun t =>
    match alGet column_map t.table_name with
    | some columns => { t with columns := columns }
    | none => t

/-- `MysqlMeta::get_views`. -/
def mysql_get_views (rows : List MysqlTableRow) : List ViewsInfo :=
  rows.map fun r => ViewsInfo.new r.schema r.tableName

/-- `MysqlMeta::set_view_columns` (empty `pk_map`). -/
def mysql_set_view_columns (rows : List MysqlColumnRow)
    (view_vec : List ViewsInfo) : List ViewsInfo :=
  let column_map := mysql_get_columns rows []
  view_vec.map fun v =>
    match alGet column_map v.view_name with
    | some columns => { v with columns := columns }
    | none => v

/-! ### PostgreSQL provider (`pg_meta.rs`)

For `get_tables`/`get_views` the relevant part of the catalog
(`pg_class ⋈ pg_namespace ⋈ pg_description`) is modelled explicitly as a
list of relations so that the SQL `WHERE` clause itself — which hard-codes
`n.nspname = 'public'` and selects on `c.relkind` — is part of the
embedding. The remaining stages take their query's decoded rows directly. -/

/-- One relation of the modelled `pg_class ⋈ pg_namespace ⋈ pg_description`
catalog: namespace name, relation name, relation kind (`"r"`, `"v"`, ...)
and attached description. -/
structure PgRel where
  schema : String
  relname : String
  relkind : String
  comment : Option String
  deriving DecidableEq, Repr

/-- `PgMeta::get_tables`: the query's `WHERE` clause keeps exactly the
relations with `nspname = 'public'` (a literal, not the configured schema)
and `relkind = 'r'`. -/
def pg_get_tables (cat : List PgRel) : List TableInfo :=
  (cat.filter fun r => r.schema == "public" && r.relkind == "r").map
    fun r => TableInfo.new r.schema r.relname r.comment

/-- `PgMeta::get_views`: same query with `relkind = 'v'`. -/
def pg_get_views (cat : List PgRel) : List ViewsInfo :=
  (cat.filter fun r => r.schema == "public" && r.relkind == "v").map
    fun r => ViewsInfo.new r.schema r.relname

/-- A row of the `pg_index`-join primary-key query (`pkName` is the
`*_pkey` index relation's name). -/
structure PgPkRow where
  schema : String
  tableName : String
  columnName : String
  keySeq : Int
  pkName : String
  deriving DecidableEq, Repr

/-- `PgMeta::set_primary_key`. -/
def pg_set_primary_key (rows : List PgPkRow)
    (table_vec : List TableInfo) : List TableInfo :=
  let pk_map := rows.map fun r => (r.tableName, (r.columnName, r.pkName))
  table_vec.map fun t =>
    match hmLookup pk_map t.table_name with
    | some pk => { t with pk_name := pk.2, pk_column := pk.1 }
    | none => t

/-- A row of the non-`_pkey` index query (the column aliased `PK_NAME` is
the index relation's name; `indexdef` comes from `pg_indexes`). -/
structure PgIndexRow where
  schema : String
  tableName : String
  columnName : String
  keySeq : Int
  pkName : String
  indexdef : String
  deriving DecidableEq, Repr

/-- `PgMeta::set_index_key`. The source's `IndexInfo` literal gives no
`is_unique` value at all (the struct-literal omits the field); the missing
field is modelled as `false` — no claim depends on it. -/
def pg_set_index_key (rows : List PgIndexRow)
    (table_vec : List TableInfo) : List TableInfo :=
  let index_map := buildMap (rows.map fun r =>
    (r.tableName, IndexInfo.mk r.columnName r.pkName r.indexdef false))
  table_vec.map fun t =>
    match alGet index_map t.table_name with
    | some indexes => { t with index_columns := indexes }
    | none => t

/-- A row of the `information_schema.columns ⋈ pg_description` query. -/
structure PgColumnRow where
  tableSchema : String
  tableName : String
  columnName : String
  udtName : String
  columnLength : Int
  numericScale : Option Int
  description : Option String
  isNullable : String
  ordinalPosition : Int
  columnDef : Option String
  deriving DecidableEq, Repr

/-- `PgMeta::set_columns`, loop body: the `Column` built from one catalog
row against the table-name → pk-column map. -/
def pg_column_of_row (pk_map : List (String × String))
    (r : PgColumnRow) : Column :=
  let is_nullable := r.isNullable != "NO"
  let is_pk := hmLookup pk_map r.tableName == some r.columnName
  let auto_increment := r.columnDef.map fun d =>
    is_pk && strStartsWith (strToLower d) "nextval"
  Column.mk r.columnName (pg_field_type r.udtName) r.udtName
    r.columnLength r.numericScale is_nullable r.description
    auto_increment r.columnDef is_pk

/-- `PgMeta::set_columns`. -/
def pg_set_columns (rows : List PgColumnRow)
    (table_vec : List TableInfo) : List TableInfo :=
  let pk_map := table_vec.map fun t => (t.table_name, t.pk_column)
  let column_map := buildMap (rows.map fun r =>
    (r.tableName, pg_column_of_row pk_map r))
  table_vec.map fun t =>
    match alGet column_map t.table_name with
    | some columns => { t with columns := columns }
    | none => t

/-- `PgMeta::set_view_columns`, loop body (`auto_increment: None`,
`is_pk: false`). -/
def pg_view_column_of_row (r : PgColumnRow) : Column :=
  let is_nullable := r.isNullable != "NO"
  Column.mk r.columnName (pg_field_type r.udtName) r.udtName
    r.columnLength r.numericScale is_nullable r.description
    none r.columnDef false

/-- `PgMeta::set_view_columns`. -/
def pg_set_view_columns (rows : List PgColumnRow)
    (view_vec : List ViewsInfo) : List ViewsInfo :=
  let column_map := buildMap (rows.map fun r =>
    (r.tableName, pg_view_column_of_row r))
  view_vec.map fun v =>
    match alGet column_map v.view_name with
    | some columns => { v with columns := columns }
    | none => v

/-! ### Orchestrator (`meta.rs`) -/

/-- The `MetaTrait` object as the orchestrator sees it: each stage is one
suspending call that either fails with a `MetaError` or yields the updated
table/view list (`&mut Vec` threading made explicit). -/
structure MetaProvider where
  get_tables : Except MetaError (List TableInfo)
  set_primary_key : List TableInfo → Except MetaError (List TableInfo)
  set_index_key : List TableInfo → Except MetaError (List TableInfo)
  set_columns : List TableInfo → Except MetaError (List TableInfo)
  get_views : Except MetaError (List ViewsInfo)
  set_view_columns : List ViewsInfo → Except MetaError (List ViewsInfo)

/-- `MetadataService::get_metadata`: the fixed six-stage pipeline, each
stage behind `?`. -/
def get_metadata (p : MetaProvider) : Except MetaError Metadata := do
  let tables_info ← p.get_tables
  let tables_info ← p.set_primary_key tables_info
  let tables_info ← p.set_index_key tables_info
  let tables_info ← p.set_columns tables_info
  let views_info ← p.get_views
  let views_info ← p.set_view_columns views_info
  .ok { tables := tables_info, views := views_info }

/-- The decoded result of every catalog query a `MysqlMeta` extraction
issues (one `Except` per round-trip, errors representing failed calls). -/
structure MysqlDb where
  tableRows : Except MetaError (List MysqlTableRow)
  pkRows : Except MetaError (List MysqlPkRow)
  indexRows : Except MetaError (List MysqlIndexRow)
  columnRows : Except MetaError (List MysqlColumnRow)
  viewRows : Except MetaError (List MysqlTableRow)
  viewColumnRows : Except MetaError (List MysqlColumnRow)

/-- `MysqlMeta` as a `MetaTrait` object over its query results. -/
def mysqlProvider (db : MysqlDb) : MetaProvider where
  get_tables := db.tableRows.map mysql_get_tables
  set_primary_key := fun ts => db.pkRows.map fun rs => mysql_set_primary_key rs ts
  set_index_key := fun ts => db.indexRows.map fun rs => mysql_set_index_key rs ts
  set_columns := fun ts => db.columnRows.map fun rs => mysql_set_columns rs ts
  get_views := db.viewRows.map mysql_get_views
  set_view_columns := fun vs =>
    db.viewColumnRows.map fun rs => mysql_set_view_columns rs vs

/-- The decoded result of every catalog query a `PgMeta` extraction issues
(`rels` backs both the table and the view query). -/
structure PgDb where
  rels : Except MetaError (List PgRel)
  pkRows : Except MetaError (List PgPkRow)
  indexRows : Except MetaError (List PgIndexRow)
  columnRows : Except MetaError (List PgColumnRow)
  viewColumnRows : Except MetaError (List PgColumnRow)

/-- `PgMeta` as a `MetaTrait` object over its query results. -/
def pgProvider (db : PgDb) : MetaProvider where
  get_tables := db.rels.map pg_get_tables
  set_primary_key := fun ts => db.pkRows.map fun rs => pg_set_primary_key rs ts
  set_index_key := fun ts => db.indexRows.map fun rs => pg_set_index_key rs ts
  set_columns := fun ts => db.columnRows.map fun rs => pg_set_columns rs ts
  get_views := db.rels.map pg_get_views
  set_view_columns := fun vs =>
    db.viewColumnRows.map fun rs => pg_set_view_columns rs vs

/-- `MetadataService::create_metadata_handler`: the connection attempts of
`PgMeta::new` / `MysqlMeta::new` are the `pgDb` / `mysqlDb` arguments (an
`Except.error` is a failed connection); the MariaDB and SQLite arms fail
without consulting either. -/
def create_metadata_handler (cfg : ConnConfig)
    (mysqlDb : Except MetaError MysqlDb) (pgDb : Except MetaError PgDb) :
    Except MetaError MetaProvider :=
  match cfg.db_type with
  | .Postgresql => pgDb.map pgProvider
  | .MySql => mysqlDb.map mysqlProvider
  | .MariaDb => .error (.InvalidArgument "暂不支持MariaDB")
  | .Sqlite => .error (.InvalidArgument "暂不支持SQLite")

/-- `MetadataService::get_metadata` end to end: resolve the handler, then
run the pipeline. -/
def service_get_metadata (cfg : ConnConfig)
    (mysqlDb : Except MetaError MysqlDb) (pgDb : Except MetaError PgDb) :
    Except MetaError Metadata := do
  let handler ← create_metadata_handler cfg mysqlDb pgDb
  get_metadata handler

/-! ### Catalog value reads (`Row::get` call sites, `error.rs`)

A catalog cell read is modelled from the driver's side as the outcome of
`sqlx`'s full decode attempt (direct text decode, then the driver-internal
UTF-8 fallback on raw bytes): `Except.ok` the decoded text, or
`Except.error` when both representations fail to decode. What the provider
does with that outcome is this repository's code. -/

/-- Outcome of a provider-side read: a value, a returned `MetaError`, or a
Rust panic. -/
inductive ReadOutcome (α : Type) where
  | ok (a : α)
  | err (e : MetaError)
  | panicked
  deriving DecidableEq, Repr

/-- The source's read of a catalog cell: every provider uses
`Row::get`, i.e. `try_get(..).unwrap()` — a failed decode panics. -/
def row_get (cell : Except String String) : ReadOutcome String :=
  match cell with
  | .ok s => .ok s
  | .error _ => .panicked

/-- Modelled from the spec: the Value Decoder contract of §4.4 (absent from
`src/`, which unwraps instead) — when the direct text decode and the UTF-8
byte-sequence fallback both fail, the read fails with the database-error
kind (`DbException`, via `From<sqlx::Error>` in `error.rs`) instead of
panicking or yielding empty text. -/
def value_read_spec (cell : Except String String) : ReadOutcome String :=
  match cell with
  | .ok s => .ok s
  | .error e => .err (.DbException e)

/-- Modelled from the spec: the tables the PostgreSQL table query is
described to return — the relations of kind `r` in the given (configured)
schema. Second definition, for comparison with `pg_get_tables`. -/
def pg_tables_of_schema (schemaName : String) (cat : List PgRel) :
    List TableInfo :=
  (cat.filter fun r => r.schema == schemaName && r.relkind == "r").map
    fun r => TableInfo.new r.schema r.relname r.comment

/-- Modelled from the spec: the view counterpart of
`pg_tables_of_schema`, for comparison with `pg_get_views`. -/
def pg_views_of_schema (schemaName : String) (cat : List PgRel) :
    List ViewsInfo :=
  (cat.filter fun r => r.schema == schemaName && r.relkind == "v").map
    fun r => ViewsInfo.new r.schema r.relname

/-! ### Sample fixtures (used by witnesses) -/

/-- A provider whose very first stage fails. -/
def sampleFailingProvider : MetaProvider where
  get_tables := .error (.DbException "connection reset")
  set_primary_key := fun ts => .ok ts
  set_index_key := fun ts => .ok ts
  set_columns := fun ts => .ok ts
  get_views := .ok []
  set_view_columns := fun vs => .ok vs

/-- A small healthy MySQL catalog: one table `t1` (pk `id`, one two-column
unique index), one view `v1`. -/
def sampleMysqlDb : MysqlDb where
  tableRows := .ok [⟨"sys", "t1", "demo table"⟩]
  pkRows := .ok [⟨"t1", "id"⟩]
  indexRows := .ok [⟨"sys", "t1", "uk_ab", "a,b", "0"⟩]
  columnRows := .ok
    [⟨"t1", "id", "int", "int(11)", none, none, "NO", "", "auto_increment"⟩,
     ⟨"t1", "name", "varchar", "varchar(32)", some 32, none, "YES", "", ""⟩]
  viewRows := .ok [⟨"sys", "v1", ""⟩]
  viewColumnRows := .ok
    [⟨"v1", "c1", "varchar", "varchar(16)", some 16, none, "YES", "", ""⟩]

/-- The metadata the pipeline extracts from `sampleMysqlDb`. -/
def sampleMysqlMetadata : Metadata :=
  (get_metadata (mysqlProvider sampleMysqlDb)).toOption.getD
    { tables := [], views := [] }

/-- A small healthy PostgreSQL catalog: one table `t1` (pk `id`), one view
`v1`. -/
def samplePgDb : PgDb where
  rels := .ok [⟨"public", "t1", "r", some "demo"⟩, ⟨"public", "v1", "v", none⟩]
  pkRows := .ok [⟨"public", "t1", "id", 1, "t1_pkey"⟩]
  indexRows := .ok
    [⟨"public", "t1", "c1", 1, "ix_c", "CREATE INDEX ix_c ON t1 (c1)"⟩]
  columnRows := .ok
    [⟨"public", "t1", "id", "int4", 32, some 0, none, "NO", 1,
      some "nextval(t1_id_seq)"⟩]
  viewColumnRows := .ok
    [⟨"public", "v1", "c1", "varchar", 16, none, none, "YES", 1, none⟩]

/-- The metadata the pipeline extracts from `samplePgDb`. -/
def samplePgMetadata : Metadata :=
  (get_metadata (pgProvider samplePgDb)).toOption.getD
    { tables := [], views := [] }

/-- An all-default `Column`, used as a lookup fallback in witnesses. -/
def sampleDefaultColumn : Column :=
  { name := "", column_type := .String, type_name := "", length := -1,
    digit := none, is_nullable := false, comment := none,
    auto_increment := none, column_def := none, is_pk := false }

/-! ### Helper lemmas -/

theorem hmLookup_eq_none {α : Type} (ps : List (String × α)) (k : String)
    (h : ∀ p ∈ ps, p.1 ≠ k) : hmLookup ps k = none := by
  induction ps with
  | nil => rfl
  | cons p rest ih =>
    have hrest := ih fun q hq => h q (List.mem_cons_of_mem p hq)
    simp [hmLookup, hrest, h p (List.mem_cons_self p rest)]

theorem hmLookup_eq_some_of_nodup {α : Type} (ps : List (String × α))
    (k : String) (v : α) (hnd : (ps.map Prod.fst).Nodup)
    (hmem : (k, v) ∈ ps) : hmLookup ps k = some v := by
  induction ps with
  | nil => cases hmem
  | cons p rest ih =>
    simp only [List.map_cons, List.nodup_cons] at hnd
    rcases List.mem_cons.mp hmem with h | h
    · subst h
      have hrest : hmLookup rest k = none :=
        hmLookup_eq_none rest k fun q hq hq1 =>
          hnd.1 (List.mem_map.mpr ⟨q, hq, hq1⟩)
      simp [hmLookup, hrest]
    · simp [hmLookup, ih hnd.2 h]

theorem alGet_alInsertPush {α : Type} (m : List (String × List α))
    (k' : String) (a : α) (k : String) :
    alGet (alInsertPush m k' a) k =
      if k' = k then some ((alGet m k).getD [] ++ [a]) else alGet m k := by
  induction m with
  | nil =>
    by_cases h : k' = k <;> simp [alInsertPush, alGet, h]
  | cons p rest ih =>
    obtain ⟨k'', xs⟩ := p
    by_cases h1 : k'' = k'
    · subst h1
      by_cases h2 : k'' = k
      · subst h2
        simp [alInsertPush, alGet]
      · simp [alInsertPush, alGet, h2]
    · by_cases h2 : k'' = k
      · subst h2
        have hk : ¬ k' = k'' := fun e => h1 e.symm
        simp [alInsertPush, alGet, h1, hk]
      · simp [alInsertPush, alGet, h1, h2, ih]

theorem alGet_foldl_insertPush_some {α : Type} [DecidableEq α] (ps : List (String × α))
    (m : List (String × List α)) (k : String) (xs : List α)
    (h : alGet m k = some xs) :
    alGet (ps.foldl (fun m p => alInsertPush m p.1 p.2) m) k
      = some (xs ++ (ps.filter fun p => p.1 = k).map Prod.snd) := by
  induction ps generalizing m xs with
  | nil => simpa using h
  | cons p ps ih =>
    have hstep := alGet_alInsertPush m p.1 p.2 k
    by_cases hp : p.1 = k
    · rw [if_pos hp, h] at hstep
      rw [List.foldl_cons, ih _ _ hstep]
      simp [List.filter_cons, hp]
    · rw [if_neg hp] at hstep
      rw [List.foldl_cons, ih _ _ (hstep.trans h)]
      simp [List.filter_cons, hp]

theorem alGet_foldl_insertPush_none {α : Type} [DecidableEq α] (ps : List (String × α))
    (m : List (String × List α)) (k : String) (h : alGet m k = none) :
    alGet (ps.foldl (fun m p => alInsertPush m p.1 p.2) m) k
      = if (ps.filter fun p => p.1 = k) = [] then none
        else some ((ps.filter fun p => p.1 = k).map Prod.snd) := by
  induction ps generalizing m with
  | nil => simpa using h
  | cons p ps ih =>
    have hstep := alGet_alInsertPush m p.1 p.2 k
    by_cases hp : p.1 = k
    · rw [if_pos hp, h] at hstep
      rw [List.foldl_cons,
        alGet_foldl_insertPush_some ps _ k [p.2] (by simpa using hstep)]
      simp [List.filter_cons, hp]
    · rw [if_neg hp] at hstep
      rw [List.foldl_cons, ih _ (hstep.trans h)]
      have hfc : (p :: ps).filter (fun p => p.1 = k)
          = ps.filter (fun p => p.1 = k) := by
        simp [List.filter_cons, hp]
      rw [hfc]

theorem alGet_buildMap {α : Type} [DecidableEq α] (ps : List (String × α)) (k : String) :
    alGet (buildMap ps) k
      = if (ps.filter fun p => p.1 = k) = [] then none
        else some ((ps.filter fun p => p.1 = k).map Prod.snd) :=
  alGet_foldl_insertPush_none ps [] k rfl

theorem alGet_buildMap_eq_none {α : Type} [DecidableEq α] (ps : List (String × α))
    (k : String) (h : ∀ p ∈ ps, p.1 ≠ k) : alGet (buildMap ps) k = none := by
  rw [alGet_buildMap, if_pos]
  rw [List.filter_eq_nil_iff]
  intro p hp
  simpa using h p hp

theorem filter_fst_block {γ : Type} (kr k : String) (xs : List γ) :
    ((xs.map fun x => (kr, x)).filter fun p => p.1 = k)
      = if kr = k then xs.map fun x => (kr, x) else [] := by
  induction xs with
  | nil => simp
  | cons x xs ih => by_cases h : kr = k <;> simp [List.filter_cons, h, ih]

theorem filter_fst_map_snd {β δ : Type} (rows : List β) (key : β → String)
    (mk : β → δ) (k : String) :
    ((rows.map fun r => (key r, mk r)).filter fun p => p.1 = k).map Prod.snd
      = (rows.filter fun r => key r = k).map mk := by
  induction rows with
  | nil => rfl
  | cons r rows ih =>
    by_cases h : key r = k <;> simp [List.filter_cons, h, ih]

theorem alGet_buildMap_mapped {β δ : Type} [DecidableEq δ] (rows : List β)
    (key : β → String) (mk : β → δ) (k : String) :
    alGet (buildMap (rows.map fun r => (key r, mk r))) k
      = if ((rows.filter fun r => key r = k).map mk) = [] then none
        else some ((rows.filter fun r => key r = k).map mk) := by
  rw [alGet_buildMap]
  have hm := filter_fst_map_snd rows key mk k
  by_cases h : (rows.filter fun r => key r = k).map mk = []
  · have hpf : ((rows.map fun r => (key r, mk r)).filter
        fun p => p.1 = k) = [] := by
      have h2 := hm.trans h
      rwa [List.map_eq_nil_iff] at h2
    simp [hpf, h]
  · have hpf : ¬ ((rows.map fun r => (key r, mk r)).filter
        fun p => p.1 = k) = [] := by
      intro he
      apply h
      rw [← hm, he]
      rfl
    simp [hpf, h, hm]

theorem filter_fst_flat_map_snd {β γ : Type} (rows : List β)
    (key : β → String) (items : β → List γ) (k : String) :
    ((rows.flatMap fun r => (items r).map fun x => (key r, x)).filter
        fun p => p.1 = k).map Prod.snd
      = (rows.filter fun r => key r = k).flatMap items := by
  induction rows with
  | nil => rfl
  | cons r rows ih =>
    rw [List.flatMap_cons, List.filter_append, List.map_append, ih,
      filter_fst_block]
    by_cases h : key r = k
    · rw [if_pos h]
      simp [List.filter_cons, h, List.map_map, Function.comp_def]
    · rw [if_neg h]
      simp [List.filter_cons, h]

theorem alGet_buildMap_flat {β γ : Type} [DecidableEq γ] (rows : List β)
    (key : β → String) (items : β → List γ) (k : String) :
    alGet (buildMap (rows.flatMap fun r =>
        (items r).map fun x => (key r, x))) k
      = if ((rows.filter fun r => key r = k).flatMap items) = [] then none
        else some ((rows.filter fun r => key r = k).flatMap items) := by
  rw [alGet_buildMap]
  have hm := filter_fst_flat_map_snd rows key items k
  by_cases h : (rows.filter fun r => key r = k).flatMap items = []
  · have hpf : ((rows.flatMap fun r =>
        (items r).map fun x => (key r, x)).filter fun p => p.1 = k) = [] := by
      have h2 := hm.trans h
      rwa [List.map_eq_nil_iff] at h2
    simp [hpf, h]
  · have hpf : ¬ ((rows.flatMap fun r =>
        (items r).map fun x => (key r, x)).filter fun p => p.1 = k) = [] := by
      intro he
      apply h
      rw [← hm, he]
      rfl
    simp [hpf, h, hm]

/-- Inversion for the pipeline: a returned `Metadata` is exactly a run in
which every stage succeeded, in order, each feeding the next. -/
theorem get_metadata_ok_iff (p : MetaProvider) (m : Metadata) :
    get_metadata p = .ok m ↔
      ∃ t0 t1 t2 t3 v0 v1,
        p.get_tables = .ok t0 ∧ p.set_primary_key t0 = .ok t1 ∧
        p.set_index_key t1 = .ok t2 ∧ p.set_columns t2 = .ok t3 ∧
        p.get_views = .ok v0 ∧ p.set_view_columns v0 = .ok v1 ∧
        m = { tables := t3, views := v1 } := by
  cases h0 : p.get_tables with
  | error e => simp [get_metadata, h0, Except.bind, Bind.bind]
  | ok t0 =>
  cases h1 : p.set_primary_key t0 with
  | error e => simp [get_metadata, h0, h1, Except.bind, Bind.bind]
  | ok t1 =>
  cases h2 : p.set_index_key t1 with
  | error e => simp [get_metadata, h0, h1, h2, Except.bind, Bind.bind]
  | ok t2 =>
  cases h3 : p.set_columns t2 with
  | error e => simp [get_metadata, h0, h1, h2, h3, Except.bind, Bind.bind]
  | ok t3 =>
  cases h4 : p.get_views with
  | error e => simp [get_metadata, h0, h1, h2, h3, h4, Except.bind, Bind.bind]
  | ok v0 =>
  cases h5 : p.set_view_columns v0 with
  | error e =>
    simp [get_metadata, h0, h1, h2, h3, h4, h5, Except.bind, Bind.bind]
  | ok v1 =>
    simp only [get_metadata, h0, h1, h2, h3, h4, h5, Except.bind, Bind.bind]
    constructor
    · intro h
      refine ⟨t0, t1, t2, t3, v0, v1, rfl, h1, h2, h3, rfl, h5, ?_⟩
      injection h with h
      exact h.symm
    · rintro ⟨t0', t1', t2', t3', v0', v1', e0, e1, e2, e3, e4, e5, rfl⟩
      injection e0 with e0
      subst e0
      rw [h1] at e1
      injection e1 with e1
      subst e1
      rw [h2] at e2
      injection e2 with e2
      subst e2
      rw [h3] at e3
      injection e3 with e3
      subst e3
      injection e4 with e4
      subst e4
      rw [h5] at e5
      injection e5 with e5
      subst e5
      rfl

/-- Every table produced by `MysqlMeta::get_tables` starts with default
pk/index/column fields. -/
theorem mysql_get_tables_mem (rows : List MysqlTableRow) (t : TableInfo)
    (h : t ∈ mysql_get_tables rows) :
    t.pk_name = "" ∧ t.pk_column = "" ∧ t.index_columns = [] ∧
      t.columns = [] := by
  obtain ⟨r, _, rfl⟩ := List.mem_map.mp h
  exact ⟨rfl, rfl, rfl, rfl⟩

theorem pg_get_tables_mem (cat : List PgRel) (t : TableInfo)
    (h : t ∈ pg_get_tables cat) :
    t.pk_name = "" ∧ t.pk_column = "" ∧ t.index_columns = [] ∧
      t.columns = [] := by
  obtain ⟨r, _, rfl⟩ := List.mem_map.mp h
  exact ⟨rfl, rfl, rfl, rfl⟩

/-- `MysqlMeta::set_primary_key` rewrites at most `pk_column`. -/
theorem mysql_set_primary_key_mem (rows : List MysqlPkRow)
    (ts : List TableInfo) (t' : TableInfo)
    (h : t' ∈ mysql_set_primary_key rows ts) :
    ∃ t ∈ ts, t'.schema = t.schema ∧ t'.table_name = t.table_name ∧
      t'.comment = t.comment ∧ t'.pk_name = t.pk_name ∧
      t'.index_columns = t.index_columns ∧ t'.columns = t.columns := by
  simp only [mysql_set_primary_key] at h
  obtain ⟨t, ht, rfl⟩ := List.mem_map.mp h
  refine ⟨t, ht, ?_⟩
  cases hmLookup (rows.map fun r => (r.tableName, r.columnName))
      t.table_name <;> simp

/-- `PgMeta::set_primary_key` rewrites at most `pk_name`/`pk_column`. -/
theorem pg_set_primary_key_mem (rows : List PgPkRow)
    (ts : List TableInfo) (t' : TableInfo)
    (h : t' ∈ pg_set_primary_key rows ts) :
    ∃ t ∈ ts, t'.schema = t.schema ∧ t'.table_name = t.table_name ∧
      t'.comment = t.comment ∧ t'.index_columns = t.index_columns ∧
      t'.columns = t.columns := by
  simp only [pg_set_primary_key] at h
  obtain ⟨t, ht, rfl⟩ := List.mem_map.mp h
  refine ⟨t, ht, ?_⟩
  cases hmLookup (rows.map fun r => (r.tableName, (r.columnName, r.pkName)))
      t.table_name <;> simp

/-- `MysqlMeta::set_index_key` rewrites at most `index_columns`. -/
theorem mysql_set_index_key_mem (rows : List MysqlIndexRow)
    (ts : List TableInfo) (t' : TableInfo)
    (h : t' ∈ mysql_set_index_key rows ts) :
    ∃ t ∈ ts, t'.schema = t.schema ∧ t'.table_name = t.table_name ∧
      t'.comment = t.comment ∧ t'.pk_name = t.pk_name ∧
      t'.pk_column = t.pk_column ∧ t'.columns = t.columns := by
  simp only [mysql_set_index_key] at h
  obtain ⟨t, ht, rfl⟩ := List.mem_map.mp h
  refine ⟨t, ht, ?_⟩
  cases alGet (buildMap (rows.flatMap fun r =>
      (mysql_index_infos_of_row r).map fun x => (r.tableName, x)))
      t.table_name <;> simp

/-- `PgMeta::set_index_key` rewrites at most `index_columns`. -/
theorem pg_set_index_key_mem (rows : List PgIndexRow)
    (ts : List TableInfo) (t' : TableInfo)
    (h : t' ∈ pg_set_index_key rows ts) :
    ∃ t ∈ ts, t'.schema = t.schema ∧ t'.table_name = t.table_name ∧
      t'.comment = t.comment ∧ t'.pk_name = t.pk_name ∧
      t'.pk_column = t.pk_column ∧ t'.columns = t.columns := by
  simp only [pg_set_index_key] at h
  obtain ⟨t, ht, rfl⟩ := List.mem_map.mp h
  refine ⟨t, ht, ?_⟩
  cases alGet (buildMap (rows.map fun r =>
      (r.tableName, IndexInfo.mk r.columnName r.pkName r.indexdef false)))
      t.table_name <;> simp

/-- `MysqlMeta::set_columns` rewrites at most `columns`, and a rewritten
column list comes from the stage's column map at the table's name. -/
theorem mysql_set_columns_mem (rows : List MysqlColumnRow)
    (ts : List TableInfo) (t' : TableInfo)
    (h : t' ∈ mysql_set_columns rows ts) :
    ∃ t ∈ ts, t'.schema = t.schema ∧ t'.table_name = t.table_name ∧
      t'.comment = t.comment ∧ t'.pk_name = t.pk_name ∧
      t'.pk_column = t.pk_column ∧ t'.index_columns = t.index_columns ∧
      (t'.columns = t.columns ∨
        alGet (mysql_get_columns rows
            ((ts.filter fun t => !t.pk_column.isEmpty).map
              fun t => (t.table_name, t.pk_column)))
          t.table_name = some t'.columns) := by
  simp only [mysql_set_columns] at h
  obtain ⟨t, ht, rfl⟩ := List.mem_map.mp h
  refine ⟨t, ht, ?_⟩
  cases h2 : alGet (mysql_get_columns rows
      ((ts.filter fun t => !t.pk_column.isEmpty).map
        fun t => (t.table_name, t.pk_column))) t.table_name with
  | none => exact ⟨rfl, rfl, rfl, rfl, rfl, rfl, Or.inl rfl⟩
  | some cs => exact ⟨rfl, rfl, rfl, rfl, rfl, rfl, Or.inr rfl⟩

/-- `PgMeta::set_columns` rewrites at most `columns`, and a rewritten
column list comes from the stage's column map at the table's name. -/
theorem pg_set_columns_mem (rows : List PgColumnRow)
    (ts : List TableInfo) (t' : TableInfo)
    (h : t' ∈ pg_set_columns rows ts) :
    ∃ t ∈ ts, t'.schema = t.schema ∧ t'.table_name = t.table_name ∧
      t'.comment = t.comment ∧ t'.pk_name = t.pk_name ∧
      t'.pk_column = t.pk_column ∧ t'.index_columns = t.index_columns ∧
      (t'.columns = t.columns ∨
        alGet (buildMap (rows.map fun r =>
            (r.tableName, pg_column_of_row
              (ts.map fun t => (t.table_name, t.pk_column)) r)))
          t.table_name = some t'.columns) := by
  simp only [pg_set_columns] at h
  obtain ⟨t, ht, rfl⟩ := List.mem_map.mp h
  refine ⟨t, ht, ?_⟩
  cases h2 : alGet (buildMap (rows.map fun r =>
      (r.tableName, pg_column_of_row
        (ts.map fun t => (t.table_name, t.pk_column)) r)))
      t.table_name with
  | none => exact ⟨rfl, rfl, rfl, rfl, rfl, rfl, Or.inl rfl⟩
  | some cs => exact ⟨rfl, rfl, rfl, rfl, rfl, rfl, Or.inr rfl⟩

/-- Every view produced by `MysqlMeta::get_views` starts without columns. -/
theorem mysql_get_views_mem (rows : List MysqlTableRow) (v : ViewsInfo)
    (h : v ∈ mysql_get_views rows) : v.columns = [] := by
  obtain ⟨r, _, rfl⟩ := List.mem_map.mp h
  rfl

theorem pg_get_views_mem (cat : List PgRel) (v : ViewsInfo)
    (h : v ∈ pg_get_views cat) : v.columns = [] := by
  obtain ⟨r, _, rfl⟩ := List.mem_map.mp h
  rfl

/-- `MysqlMeta::set_view_columns` rewrites at most `columns`. -/
theorem mysql_set_view_columns_mem (rows : List MysqlColumnRow)
    (vs : List ViewsInfo) (v' : ViewsInfo)
    (h : v' ∈ mysql_set_view_columns rows vs) :
    ∃ v ∈ vs, v'.schema = v.schema ∧ v'.view_name = v.view_name ∧
      (v'.columns = v.columns ∨
        alGet (mysql_get_columns rows []) v.view_name = some v'.columns) := by
  simp only [mysql_set_view_columns] at h
  obtain ⟨v, hv, rfl⟩ := List.mem_map.mp h
  refine ⟨v, hv, ?_⟩
  cases h2 : alGet (mysql_get_columns rows []) v.view_name with
  | none => exact ⟨rfl, rfl, Or.inl rfl⟩
  | some cs => exact ⟨rfl, rfl, Or.inr rfl⟩

/-- `PgMeta::set_view_columns` rewrites at most `columns`. -/
theorem pg_set_view_columns_mem (rows : List PgColumnRow)
    (vs : List ViewsInfo) (v' : ViewsInfo)
    (h : v' ∈ pg_set_view_columns rows vs) :
    ∃ v ∈ vs, v'.schema = v.schema ∧ v'.view_name = v.view_name ∧
      (v'.columns = v.columns ∨
        alGet (buildMap (rows.map fun r =>
            (r.tableName, pg_view_column_of_row r)))
          v.view_name = some v'.columns) := by
  simp only [pg_set_view_columns] at h
  obtain ⟨v, hv, rfl⟩ := List.mem_map.mp h
  refine ⟨v, hv, ?_⟩
  cases h2 : alGet (buildMap (rows.map fun r =>
      (r.tableName, pg_view_column_of_row r))) v.view_name with
  | none => exact ⟨rfl, rfl, Or.inl rfl⟩
  | some cs => exact ⟨rfl, rfl, Or.inr rfl⟩

/-- Stage name preservation: `MysqlMeta::get_tables`. -/
theorem map_name_mysql_get_tables (rows : List MysqlTableRow) :
    (mysql_get_tables rows).map TableInfo.table_name
      = rows.map MysqlTableRow.tableName := by
  simp only [mysql_get_tables, List.map_map]
  rfl

/-- Stage name preservation: `MysqlMeta::set_primary_key`. -/
theorem map_name_mysql_set_primary_key (rows : List MysqlPkRow)
    (ts : List TableInfo) :
    (mysql_set_primary_key rows ts).map TableInfo.table_name
      = ts.map TableInfo.table_name := by
  simp only [mysql_set_primary_key, List.map_map]
  refine List.map_congr_left fun t _ => ?_
  simp only [Function.comp_apply]
  cases hmLookup (rows.map fun r => (r.tableName, r.columnName))
      t.table_name <;> rfl

/-- Stage name preservation: `MysqlMeta::set_index_key`. -/
theorem map_name_mysql_set_index_key (rows : List MysqlIndexRow)
    (ts : List TableInfo) :
    (mysql_set_index_key rows ts).map TableInfo.table_name
      = ts.map TableInfo.table_name := by
  simp only [mysql_set_index_key, List.map_map]
  refine List.map_congr_left fun t _ => ?_
  simp only [Function.comp_apply]
  cases alGet (buildMap (rows.flatMap fun r =>
      (mysql_index_infos_of_row r).map fun x => (r.tableName, x)))
      t.table_name <;> rfl

/-- Stage name preservation: `PgMeta::set_primary_key`. -/
theorem map_name_pg_set_primary_key (rows : List PgPkRow)
    (ts : List TableInfo) :
    (pg_set_primary_key rows ts).map TableInfo.table_name
      = ts.map TableInfo.table_name := by
  simp only [pg_set_primary_key, List.map_map]
  refine List.map_congr_left fun t _ => ?_
  simp only [Function.comp_apply]
  cases hmLookup (rows.map fun r => (r.tableName, (r.columnName, r.pkName)))
      t.table_name <;> rfl

/-- Stage name preservation: `PgMeta::set_index_key`. -/
theorem map_name_pg_set_index_key (rows : List PgIndexRow)
    (ts : List TableInfo) :
    (pg_set_index_key rows ts).map TableInfo.table_name
      = ts.map TableInfo.table_name := by
  simp only [pg_set_index_key, List.map_map]
  refine List.map_congr_left fun t _ => ?_
  simp only [Function.comp_apply]
  cases alGet (buildMap (rows.map fun r =>
      (r.tableName, IndexInfo.mk r.columnName r.pkName r.indexdef false)))
      t.table_name <;> rfl

/-- The pk map `MysqlMeta::set_columns` builds, looked up at a member
table's name, when table names are pairwise distinct: the table's own
`pk_column` when non-empty, absent otherwise. -/
theorem hmLookup_mysql_pk_map (ts : List TableInfo)
    (hnd : (ts.map TableInfo.table_name).Nodup) (t : TableInfo)
    (ht : t ∈ ts) :
    hmLookup ((ts.filter fun t => !t.pk_column.isEmpty).map
        fun t => (t.table_name, t.pk_column)) t.table_name
      = if t.pk_column = "" then none else some t.pk_column := by
  by_cases hpk : t.pk_column = ""
  · rw [if_pos hpk]
    refine hmLookup_eq_none _ _ fun p hp => ?_
    obtain ⟨u, hu, rfl⟩ := List.mem_map.mp hp
    have hu2 := List.mem_filter.mp hu
    intro he
    have hut : u = t := List.inj_on_of_nodup_map hnd hu2.1 ht he
    have hne := hu2.2
    rw [hut, hpk] at hne
    revert hne
    decide
  · rw [if_neg hpk]
    refine hmLookup_eq_some_of_nodup _ _ _ ?_ ?_
    · have hsub : List.Sublist
          ((ts.filter fun t => !t.pk_column.isEmpty).map TableInfo.table_name)
          (ts.map TableInfo.table_name) :=
        (List.filter_sublist ts).map TableInfo.table_name
      have hnd2 := hnd.sublist hsub
      simpa [List.map_map, Function.comp_def] using hnd2
    · refine List.mem_map.mpr ⟨t, List.mem_filter.mpr ⟨ht, ?_⟩, rfl⟩
      cases he : t.pk_column.isEmpty
      · rfl
      · exact absurd ((String.isEmpty_iff t.pk_column).mp he) hpk

/-- The pk map `PgMeta::set_columns` builds, looked up at a member table's
name, when table names are pairwise distinct. -/
theorem hmLookup_pg_pk_map (ts : List TableInfo)
    (hnd : (ts.map TableInfo.table_name).Nodup) (t : TableInfo)
    (ht : t ∈ ts) :
    hmLookup (ts.map fun t => (t.table_name, t.pk_column)) t.table_name
      = some t.pk_column := by
  refine hmLookup_eq_some_of_nodup _ _ _ ?_ (List.mem_map.mpr ⟨t, ht, rfl⟩)
  simpa [List.map_map, Function.comp_def] using hnd

/-- MySQL table half of the pipeline: with pairwise-distinct table names
and non-empty column names, every stamped column satisfies
`is_pk ↔ name = pk_column`. -/
theorem mysql_pipeline_tables_is_pk (trs : List MysqlTableRow)
    (prs : List MysqlPkRow) (irs : List MysqlIndexRow)
    (crs : List MysqlColumnRow)
    (hnd : (trs.map MysqlTableRow.tableName).Nodup)
    (hcn : ∀ r ∈ crs, r.columnName ≠ "") :
    ∀ t ∈ mysql_set_columns crs (mysql_set_index_key irs
        (mysql_set_primary_key prs (mysql_get_tables trs))),
      ∀ c ∈ t.columns, (c.is_pk = true ↔ c.name = t.pk_column) := by
  intro t ht c hc
  set ts2 := mysql_set_index_key irs
    (mysql_set_primary_key prs (mysql_get_tables trs)) with hts2
  have hnd2 : (ts2.map TableInfo.table_name).Nodup := by
    rw [hts2, map_name_mysql_set_index_key, map_name_mysql_set_primary_key,
      map_name_mysql_get_tables]
    exact hnd
  obtain ⟨t2, ht2, _, hname, _, _, hpkc, _, hcols⟩ :=
    mysql_set_columns_mem crs ts2 t ht
  have ht2cols : t2.columns = [] := by
    obtain ⟨t1, ht1, _, _, _, _, _, hc1⟩ :=
      mysql_set_index_key_mem irs _ t2 ht2
    obtain ⟨t0, ht0, _, _, _, _, _, hc0⟩ :=
      mysql_set_primary_key_mem prs _ t1 ht1
    rw [hc1, hc0]
    exact (mysql_get_tables_mem trs t0 ht0).2.2.2
  rcases hcols with hsame | hlook
  · rw [hsame, ht2cols] at hc
    exact absurd hc (List.not_mem_nil c)
  · set pkm := (ts2.filter fun t => !t.pk_column.isEmpty).map
      fun t => (t.table_name, t.pk_column) with hpkm
    rw [mysql_get_columns, alGet_buildMap_mapped crs (fun r => r.tableName)
      (fun r => mysql_column_of_row pkm r) t2.table_name] at hlook
    split at hlook
    · cases hlook
    · injection hlook with hX
      rw [← hX] at hc
      obtain ⟨r, hrf, rfl⟩ := List.mem_map.mp hc
      obtain ⟨hrcrs, hrt⟩ := List.mem_filter.mp hrf
      simp only [decide_eq_true_eq] at hrt
      have hcn2 := hcn r hrcrs
      have hlk := hmLookup_mysql_pk_map ts2 hnd2 t2 ht2
      rw [← hpkm] at hlk
      show (hmLookup pkm r.tableName == some r.columnName) = true ↔
        r.columnName = t.pk_column
      rw [hrt, hlk, beq_iff_eq, hpkc]
      by_cases hp2 : t2.pk_column = ""
      · rw [if_pos hp2]
        constructor
        · intro h
          exact Option.noConfusion h
        · intro h
          rw [hp2] at h
          exact absurd h hcn2
      · rw [if_neg hp2]
        constructor
        · intro h
          exact (Option.some.inj h).symm
        · intro h
          rw [h]

/-- MySQL view half: every stamped view column has `is_pk = false`. -/
theorem mysql_pipeline_views_is_pk (crs : List MysqlColumnRow)
    (vrs : List MysqlTableRow) :
    ∀ v ∈ mysql_set_view_columns crs (mysql_get_views vrs),
      ∀ c ∈ v.columns, c.is_pk = false := by
  intro v hv c hc
  obtain ⟨v0, hv0, _, _, hcols⟩ := mysql_set_view_columns_mem crs _ v hv
  rcases hcols with hsame | hlook
  · rw [hsame, mysql_get_views_mem vrs v0 hv0] at hc
    exact absurd hc (List.not_mem_nil c)
  · rw [mysql_get_columns, alGet_buildMap_mapped crs (fun r => r.tableName)
      (fun r => mysql_column_of_row [] r) v0.view_name] at hlook
    split at hlook
    · cases hlook
    · injection hlook with hX
      rw [← hX] at hc
      obtain ⟨r, hrf, rfl⟩ := List.mem_map.mp hc
      rfl

/-- PostgreSQL table half: with pairwise-distinct table names, every
stamped column satisfies `is_pk ↔ name = pk_column`. -/
theorem pg_pipeline_tables_is_pk (rels : List PgRel) (prs : List PgPkRow)
    (irs : List PgIndexRow) (crs : List PgColumnRow)
    (hnd : ((pg_get_tables rels).map TableInfo.table_name).Nodup) :
    ∀ t ∈ pg_set_columns crs (pg_set_index_key irs
        (pg_set_primary_key prs (pg_get_tables rels))),
      ∀ c ∈ t.columns, (c.is_pk = true ↔ c.name = t.pk_column) := by
  intro t ht c hc
  set ts2 := pg_set_index_key irs
    (pg_set_primary_key prs (pg_get_tables rels)) with hts2
  have hnd2 : (ts2.map TableInfo.table_name).Nodup := by
    rw [hts2, map_name_pg_set_index_key, map_name_pg_set_primary_key]
    exact hnd
  obtain ⟨t2, ht2, _, hname, _, _, hpkc, _, hcols⟩ :=
    pg_set_columns_mem crs ts2 t ht
  have ht2cols : t2.columns = [] := by
    obtain ⟨t1, ht1, _, _, _, _, _, hc1⟩ := pg_set_index_key_mem irs _ t2 ht2
    obtain ⟨t0, ht0, _, _, _, _, hc0⟩ := pg_set_primary_key_mem prs _ t1 ht1
    rw [hc1, hc0]
    exact (pg_get_tables_mem rels t0 ht0).2.2.2
  rcases hcols with hsame | hlook
  · rw [hsame, ht2cols] at hc
    exact absurd hc (List.not_mem_nil c)
  · set pkm := ts2.map fun t => (t.table_name, t.pk_column) with hpkm
    rw [alGet_buildMap_mapped crs (fun r => r.tableName)
      (fun r => pg_column_of_row pkm r) t2.table_name] at hlook
    split at hlook
    · cases hlook
    · injection hlook with hX
      rw [← hX] at hc
      obtain ⟨r, hrf, rfl⟩ := List.mem_map.mp hc
      obtain ⟨hrcrs, hrt⟩ := List.mem_filter.mp hrf
      simp only [decide_eq_true_eq] at hrt
      have hlk := hmLookup_pg_pk_map ts2 hnd2 t2 ht2
      rw [← hpkm] at hlk
      show (hmLookup pkm r.tableName == some r.columnName) = true ↔
        r.columnName = t.pk_column
      rw [hrt, hlk, beq_iff_eq, hpkc]
      constructor
      · intro h
        exact (Option.some.inj h).symm
      · intro h
        rw [h]

/-- PostgreSQL view half: every stamped view column has `is_pk = false`. -/
theorem pg_pipeline_views_is_pk (crs : List PgColumnRow)
    (rels : List PgRel) :
    ∀ v ∈ pg_set_view_columns crs (pg_get_views rels),
      ∀ c ∈ v.columns, c.is_pk = false := by
  intro v hv c hc
  obtain ⟨v0, hv0, _, _, hcols⟩ := pg_set_view_columns_mem crs _ v hv
  rcases hcols with hsame | hlook
  · rw [hsame, pg_get_views_mem rels v0 hv0] at hc
    exact absurd hc (List.not_mem_nil c)
  · rw [alGet_buildMap_mapped crs (fun r => r.tableName)
      (fun r => pg_view_column_of_row r) v0.view_name] at hlook
    split at hlook
    · cases hlook
    · injection hlook with hX
      rw [← hX] at hc
      obtain ⟨r, hrf, rfl⟩ := List.mem_map.mp hc
      rfl

/-! ### Claim theorems -/

/-- C1: `get_metadata` drives the provider stages in the fixed order
`get_tables`, `set_primary_key`, `set_index_key`, `set_columns`,
`get_views`, `set_view_columns`; if any stage returns an error the whole
call returns that error, and a `Metadata` value is returned exactly when
every stage succeeded, assembled from the final table and view lists — no
partial `Metadata` ever reaches the caller. -/
theorem get_metadata_fixed_order_fail_fast (p : MetaProvider) :
    (∀ e, p.get_tables = .error e → get_metadata p = .error e) ∧
    (∀ t0 e, p.get_tables = .ok t0 → p.set_primary_key t0 = .error e →
      get_metadata p = .error e) ∧
    (∀ t0 t1 e, p.get_tables = .ok t0 → p.set_primary_key t0 = .ok t1 →
      p.set_index_key t1 = .error e → get_metadata p = .error e) ∧
    (∀ t0 t1 t2 e, p.get_tables = .ok t0 → p.set_primary_key t0 = .ok t1 →
      p.set_index_key t1 = .ok t2 → p.set_columns t2 = .error e →
      get_metadata p = .error e) ∧
    (∀ t0 t1 t2 t3 e, p.get_tables = .ok t0 →
      p.set_primary_key t0 = .ok t1 → p.set_index_key t1 = .ok t2 →
      p.set_columns t2 = .ok t3 → p.get_views = .error e →
      get_metadata p = .error e) ∧
    (∀ t0 t1 t2 t3 v0 e, p.get_tables = .ok t0 →
      p.set_primary_key t0 = .ok t1 → p.set_index_key t1 = .ok t2 →
      p.set_columns t2 = .ok t3 → p.get_views = .ok v0 →
      p.set_view_columns v0 = .error e → get_metadata p = .error e) ∧
    (∀ m, get_metadata p = .ok m ↔
      ∃ t0 t1 t2 t3 v0 v1,
        p.get_tables = .ok t0 ∧ p.set_primary_key t0 = .ok t1 ∧
        p.set_index_key t1 = .ok t2 ∧ p.set_columns t2 = .ok t3 ∧
        p.get_views = .ok v0 ∧ p.set_view_columns v0 = .ok v1 ∧
        m = { tables := t3, views := v1 }) := by
  refine ⟨?_, ?_, ?_, ?_, ?_, ?_, get_metadata_ok_iff p⟩
  · intro e h0
    simp [get_metadata, h0, Except.bind, Bind.bind]
  · intro t0 e h0 h1
    simp [get_metadata, h0, h1, Except.bind, Bind.bind]
  · intro t0 t1 e h0 h1 h2
    simp [get_metadata, h0, h1, h2, Except.bind, Bind.bind]
  · intro t0 t1 t2 e h0 h1 h2 h3
    simp [get_metadata, h0, h1, h2, h3, Except.bind, Bind.bind]
  · intro t0 t1 t2 t3 e h0 h1 h2 h3 h4
    simp [get_metadata, h0, h1, h2, h3, h4, Except.bind, Bind.bind]
  · intro t0 t1 t2 t3 v0 e h0 h1 h2 h3 h4 h5
    simp [get_metadata, h0, h1, h2, h3, h4, h5, Except.bind, Bind.bind]

theorem get_metadata_fixed_order_fail_fast_witness :
    get_metadata sampleFailingProvider = .error (.DbException "connection reset") :=
  (get_metadata_fixed_order_fail_fast sampleFailingProvider).1
    (.DbException "connection reset") rfl

/-- C2: both type mappers are total, deterministic functions of the raw
type-code string; `mysql_field_type` maps `"BIGINT UNSIGNED"` to `BigInt`,
`"DECIMAL"` to `BigDec` (the enum's BigDecimal variant), `"VARCHAR"` to
`String`, and every code matching no listed pattern falls back to
`String`. -/
theorem field_type_mappers_total_deterministic :
    (∀ c₁ c₂ : String, c₁ = c₂ →
      mysql_field_type c₁ = mysql_field_type c₂ ∧
      pg_field_type c₁ = pg_field_type c₂) ∧
    (∀ c : String, ∃! t : FieldTypeEnum, mysql_field_type c = t) ∧
    (∀ c : String, ∃! t : FieldTypeEnum, pg_field_type c = t) ∧
    mysql_field_type "BIGINT UNSIGNED" = .BigInt ∧
    mysql_field_type "DECIMAL" = .BigDec ∧
    mysql_field_type "VARCHAR" = .String ∧
    (∀ c : String, strToUpper c ∉ mysqlMatchedCodes →
      mysql_field_type c = .String) := by
  refine ⟨fun c₁ c₂ h => by rw [h]; exact ⟨rfl, rfl⟩,
    fun c => ⟨mysql_field_type c, rfl, fun y hy => hy.symm⟩,
    fun c => ⟨pg_field_type c, rfl, fun y hy => hy.symm⟩,
    by decide, by decide, by decide, ?_⟩
  intro c h
  simp only [mysqlMatchedCodes, List.mem_cons, List.not_mem_nil, or_false,
    not_or] at h
  obtain ⟨h1, h2, h3, h4, h5, h6, h7, h8, h9, h10, h11, h12, h13, h14, h15,
    h16, h17, h18, h19, h20, h21, h22, h23⟩ := h
  simp [mysql_field_type, h1, h2, h3, h4, h5, h6, h7, h8, h9, h10, h11, h12,
    h13, h14, h15, h16, h17, h18, h19, h20, h21, h22, h23]

theorem field_type_mappers_total_deterministic_witness :
    (mysql_field_type "DECIMAL" = mysql_field_type "DECIMAL" ∧
      pg_field_type "DECIMAL" = pg_field_type "DECIMAL") ∧
    mysql_field_type "UUID" = .String :=
  ⟨field_type_mappers_total_deterministic.1 "DECIMAL" "DECIMAL" rfl,
    field_type_mappers_total_deterministic.2.2.2.2.2.2 "UUID" (by decide)⟩

/-- C3: the PostgreSQL rules apply first-match-wins: `"bigint"` maps to
`Long` (not `Integer`, although the code contains the substring `"int"`),
and `"timestamp"` maps to `Date`. -/
theorem pg_field_type_rule_precedence :
    pg_field_type "bigint" = .Long ∧ pg_field_type "bigint" ≠ .Integer ∧
    pg_field_type "timestamp" = .Date := by decide

/-- C6: for a `ConnConfig` whose engine kind is MariaDB or SQLite,
`get_metadata` fails with `InvalidArgument`, whatever the outcome of any
connection attempt would have been (the result is the same for every
`mysqlDb`/`pgDb` argument, so no connection is consulted and no query
issued). -/
theorem unsupported_engine_rejected_before_connect (cfg : ConnConfig)
    (mysqlDb : Except MetaError MysqlDb) (pgDb : Except MetaError PgDb) :
    (cfg.db_type = .MariaDb →
      service_get_metadata cfg mysqlDb pgDb =
        .error (.InvalidArgument "暂不支持MariaDB")) ∧
    (cfg.db_type = .Sqlite →
      service_get_metadata cfg mysqlDb pgDb =
        .error (.InvalidArgument "暂不支持SQLite")) := by
  constructor <;> intro h <;>
    simp [service_get_metadata, create_metadata_handler, h,
      Except.bind, Bind.bind]

theorem unsupported_engine_rejected_before_connect_witness :
    service_get_metadata
      { url := "localhost", port := 3306, username := "root",
        password := "root", database := "sys", schema := none,
        db_type := .MariaDb }
      (.error (.DbException "no connection attempted"))
      (.error (.DbException "no connection attempted"))
      = .error (.InvalidArgument "暂不支持MariaDB") :=
  (unsupported_engine_rejected_before_connect _ _ _).1 rfl

/-- C5: `MysqlMeta::set_index_key` gives every table whose name has index
rows one `IndexInfo` per member column of each of its rows, all entries of
a row sharing that row's index name, in the row's (`seq_in_index`-ordered)
concatenation order, with `is_unique` true exactly when the `NON_UNIQUE`
text is `"0"`; in particular a two-column unique index yields exactly one
pair of entries sharing the index name, in declared column order, with
`is_unique = true`. -/
theorem mysql_set_index_key_one_info_per_member_column :
    (∀ (rows : List MysqlIndexRow) (table_vec : List TableInfo),
      mysql_set_index_key rows table_vec = table_vec.map fun t =>
        if ((rows.filter fun r => r.tableName = t.table_name).flatMap
            fun r => (strSplitComma r.columnsConcat).map fun ele =>
              IndexInfo.mk ele r.indexName "" (r.nonUnique == "0")) = []
        then t
        else { t with index_columns := ((rows.filter
                 fun r => r.tableName = t.table_name).flatMap
                   (fun r => (strSplitComma r.columnsConcat).map fun ele =>
                     IndexInfo.mk ele r.indexName "" (r.nonUnique == "0"))) }) ∧
    mysql_set_index_key [⟨"s", "t1", "uk_ab", "a,b", "0"⟩]
        [TableInfo.new "s" "t1" none]
      = [{ schema := "s", table_name := "t1", comment := none, pk_name := "",
           pk_column := "",
           index_columns := [⟨"a", "uk_ab", "", true⟩,
                             ⟨"b", "uk_ab", "", true⟩],
           columns := [] }] := by
  constructor
  · intro rows table_vec
    have hfun : ∀ t : TableInfo,
        (match alGet (buildMap (rows.flatMap fun r =>
            (mysql_index_infos_of_row r).map fun x => (r.tableName, x)))
            t.table_name with
          | some indexes => { t with index_columns := indexes }
          | none => t)
        = if ((rows.filter fun r => r.tableName = t.table_name).flatMap
              fun r => (strSplitComma r.columnsConcat).map fun ele =>
                IndexInfo.mk ele r.indexName "" (r.nonUnique == "0")) = []
          then t
          else { t with index_columns := ((rows.filter
                   fun r => r.tableName = t.table_name).flatMap
                     (fun r => (strSplitComma r.columnsConcat).map fun ele =>
                       IndexInfo.mk ele r.indexName "" (r.nonUnique == "0"))) } := by
      intro t
      rw [alGet_buildMap_flat rows (fun r => r.tableName)
        (fun r => mysql_index_infos_of_row r) t.table_name]
      simp only [mysql_index_infos_of_row]
      by_cases h : ((rows.filter fun r => r.tableName = t.table_name).flatMap
          fun r => (strSplitComma r.columnsConcat).map fun ele =>
            IndexInfo.mk ele r.indexName "" (r.nonUnique == "0")) = []
      · rw [if_pos h, if_pos h]
      · rw [if_neg h, if_neg h]
    simp only [mysql_set_index_key, hfun]
  · decide

theorem mysql_set_index_key_one_info_per_member_column_witness :
    mysql_set_index_key
        [⟨"s", "ta", "ix_c", "c1,c2,c3", "1"⟩]
        [TableInfo.new "s" "ta" none, TableInfo.new "s" "tb" none]
      = [TableInfo.new "s" "ta" none, TableInfo.new "s" "tb" none].map
          fun t =>
            if (([⟨"s", "ta", "ix_c", "c1,c2,c3", "1"⟩]
                  : List MysqlIndexRow).filter
                    fun r => r.tableName = t.table_name).flatMap
                  (fun r => (strSplitComma r.columnsConcat).map fun ele =>
                    IndexInfo.mk ele r.indexName "" (r.nonUnique == "0")) = []
            then t
            else { t with index_columns := ((([⟨"s", "ta", "ix_c", "c1,c2,c3", "1"⟩]
                         : List MysqlIndexRow).filter
                           fun r => r.tableName = t.table_name).flatMap
                         (fun r => (strSplitComma r.columnsConcat).map fun ele =>
                           IndexInfo.mk ele r.indexName "" (r.nonUnique == "0"))) } :=
  mysql_set_index_key_one_info_per_member_column.1
    [⟨"s", "ta", "ix_c", "c1,c2,c3", "1"⟩]
    [TableInfo.new "s" "ta" none, TableInfo.new "s" "tb" none]

/-- C9: `MysqlMeta::set_primary_key` writes only the `pk_column` field of
each table (every other field of every entry is untouched), and no MySQL
stage ever writes `pk_name`, so every `TableInfo` of a MySQL-extracted
`Metadata` has `pk_name = ""`. -/
theorem mysql_pk_name_always_empty :
    (∀ (rows : List MysqlPkRow) (table_vec : List TableInfo),
      (mysql_set_primary_key rows table_vec).map
          (fun t => (t.schema, t.table_name, t.comment, t.pk_name,
            t.index_columns, t.columns))
        = table_vec.map fun t => (t.schema, t.table_name, t.comment,
            t.pk_name, t.index_columns, t.columns)) ∧
    (∀ (db : MysqlDb) (m : Metadata),
      get_metadata (mysqlProvider db) = .ok m →
      ∀ t ∈ m.tables, t.pk_name = "") := by
  constructor
  · intro rows table_vec
    simp only [mysql_set_primary_key, List.map_map]
    refine List.map_congr_left fun t _ => ?_
    simp only [Function.comp_apply]
    cases hmLookup (rows.map fun r => (r.tableName, r.columnName))
        t.table_name <;> simp
  · intro db m h t ht
    rw [get_metadata_ok_iff] at h
    obtain ⟨t0, t1, t2, t3, v0, v1, e0, e1, e2, e3, e4, e5, rfl⟩ := h
    simp only [mysqlProvider] at e0 e1 e2 e3
    cases htr : db.tableRows with
    | error e => rw [htr] at e0; simp [Except.map] at e0
    | ok trs =>
    rw [htr] at e0
    simp only [Except.map] at e0
    injection e0 with e0
    subst e0
    cases hpr : db.pkRows with
    | error e => rw [hpr] at e1; simp [Except.map] at e1
    | ok prs =>
    rw [hpr] at e1
    simp only [Except.map] at e1
    injection e1 with e1
    subst e1
    cases hir : db.indexRows with
    | error e => rw [hir] at e2; simp [Except.map] at e2
    | ok irs =>
    rw [hir] at e2
    simp only [Except.map] at e2
    injection e2 with e2
    subst e2
    cases hcr : db.columnRows with
    | error e => rw [hcr] at e3; simp [Except.map] at e3
    | ok crs =>
    rw [hcr] at e3
    simp only [Except.map] at e3
    injection e3 with e3
    subst e3
    obtain ⟨tc, htc, _, _, _, hpkc, _, _, _⟩ :=
      mysql_set_columns_mem crs _ t ht
    obtain ⟨tb, htb, _, _, _, hpkb, _, _⟩ :=
      mysql_set_index_key_mem irs _ tc htc
    obtain ⟨ta, hta, _, _, _, hpka, _, _⟩ :=
      mysql_set_primary_key_mem prs _ tb htb
    rw [hpkc, hpkb, hpka]
    exact (mysql_get_tables_mem trs ta hta).1

theorem mysql_pk_name_always_empty_witness :
    (mysql_set_primary_key [⟨"t1", "id"⟩]
        [TableInfo.new "sys" "t1" (some "demo")]).map
        (fun t => (t.schema, t.table_name, t.comment, t.pk_name,
          t.index_columns, t.columns))
      = [TableInfo.new "sys" "t1" (some "demo")].map
          (fun t => (t.schema, t.table_name, t.comment, t.pk_name,
            t.index_columns, t.columns)) ∧
    (sampleMysqlMetadata.tables.getD 0
        (TableInfo.new "" "" none)).pk_name = "" :=
  ⟨mysql_pk_name_always_empty.1 [⟨"t1", "id"⟩]
      [TableInfo.new "sys" "t1" (some "demo")],
   mysql_pk_name_always_empty.2 sampleMysqlDb sampleMysqlMetadata rfl
     (sampleMysqlMetadata.tables.getD 0 (TableInfo.new "" "" none))
     (by decide)⟩

/-- C10: every mutating pipeline stage, in both providers, keeps the list
length (no entry added or removed), keeps every entry's `schema`,
`table_name`/`view_name` and `comment`, and leaves an entry whose name
does not occur in that stage's catalog rows completely unchanged. -/
theorem stages_frame_effect :
    (∀ (rows : List MysqlPkRow) (ts : List TableInfo),
      (mysql_set_primary_key rows ts).length = ts.length ∧
      ∀ (i : Nat) (t : TableInfo), ts[i]? = some t →
        ∃ t', (mysql_set_primary_key rows ts)[i]? = some t' ∧
          t'.schema = t.schema ∧ t'.table_name = t.table_name ∧
          t'.comment = t.comment ∧
          (t.table_name ∉ rows.map MysqlPkRow.tableName → t' = t)) ∧
    (∀ (rows : List MysqlIndexRow) (ts : List TableInfo),
      (mysql_set_index_key rows ts).length = ts.length ∧
      ∀ (i : Nat) (t : TableInfo), ts[i]? = some t →
        ∃ t', (mysql_set_index_key rows ts)[i]? = some t' ∧
          t'.schema = t.schema ∧ t'.table_name = t.table_name ∧
          t'.comment = t.comment ∧
          (t.table_name ∉ rows.map MysqlIndexRow.tableName → t' = t)) ∧
    (∀ (rows : List MysqlColumnRow) (ts : List TableInfo),
      (mysql_set_columns rows ts).length = ts.length ∧
      ∀ (i : Nat) (t : TableInfo), ts[i]? = some t →
        ∃ t', (mysql_set_columns rows ts)[i]? = some t' ∧
          t'.schema = t.schema ∧ t'.table_name = t.table_name ∧
          t'.comment = t.comment ∧
          (t.table_name ∉ rows.map MysqlColumnRow.tableName → t' = t)) ∧
    (∀ (rows : List MysqlColumnRow) (vs : List ViewsInfo),
      (mysql_set_view_columns rows vs).length = vs.length ∧
      ∀ (i : Nat) (v : ViewsInfo), vs[i]? = some v →
        ∃ v', (mysql_set_view_columns rows vs)[i]? = some v' ∧
          v'.schema = v.schema ∧ v'.view_name = v.view_name ∧
          (v.view_name ∉ rows.map MysqlColumnRow.tableName → v' = v)) ∧
    (∀ (rows : List PgPkRow) (ts : List TableInfo),
      (pg_set_primary_key rows ts).length = ts.length ∧
      ∀ (i : Nat) (t : TableInfo), ts[i]? = some t →
        ∃ t', (pg_set_primary_key rows ts)[i]? = some t' ∧
          t'.schema = t.schema ∧ t'.table_name = t.table_name ∧
          t'.comment = t.comment ∧
          (t.table_name ∉ rows.map PgPkRow.tableName → t' = t)) ∧
    (∀ (rows : List PgIndexRow) (ts : List TableInfo),
      (pg_set_index_key rows ts).length = ts.length ∧
      ∀ (i : Nat) (t : TableInfo), ts[i]? = some t →
        ∃ t', (pg_set_index_key rows ts)[i]? = some t' ∧
          t'.schema = t.schema ∧ t'.table_name = t.table_name ∧
          t'.comment = t.comment ∧
          (t.table_name ∉ rows.map PgIndexRow.tableName → t' = t)) ∧
    (∀ (rows : List PgColumnRow) (ts : List TableInfo),
      (pg_set_columns rows ts).length = ts.length ∧
      ∀ (i : Nat) (t : TableInfo), ts[i]? = some t →
        ∃ t', (pg_set_columns rows ts)[i]? = some t' ∧
          t'.schema = t.schema ∧ t'.table_name = t.table_name ∧
          t'.comment = t.comment ∧
          (t.table_name ∉ rows.map PgColumnRow.tableName → t' = t)) ∧
    (∀ (rows : List PgColumnRow) (vs : List ViewsInfo),
      (pg_set_view_columns rows vs).length = vs.length ∧
      ∀ (i : Nat) (v : ViewsInfo), vs[i]? = some v →
        ∃ v', (pg_set_view_columns rows vs)[i]? = some v' ∧
          v'.schema = v.schema ∧ v'.view_name = v.view_name ∧
          (v.view_name ∉ rows.map PgColumnRow.tableName → v' = v)) := by
  refine ⟨?_, ?_, ?_, ?_, ?_, ?_, ?_, ?_⟩
  · intro rows ts
    refine ⟨by simp [mysql_set_primary_key], fun i t h => ?_⟩
    have hget : (mysql_set_primary_key rows ts)[i]?
        = some (match hmLookup (rows.map fun r => (r.tableName, r.columnName))
            t.table_name with
          | some name => { t with pk_column := name }
          | none => t) := by
      simp only [mysql_set_primary_key]
      rw [List.getElem?_map, h]
      rfl
    refine ⟨_, hget, ?_, ?_, ?_, ?_⟩
    · cases hmLookup (rows.map fun r => (r.tableName, r.columnName))
        t.table_name <;> rfl
    · cases hmLookup (rows.map fun r => (r.tableName, r.columnName))
        t.table_name <;> rfl
    · cases hmLookup (rows.map fun r => (r.tableName, r.columnName))
        t.table_name <;> rfl
    · intro habs
      have hnone : hmLookup (rows.map fun r => (r.tableName, r.columnName))
          t.table_name = none := by
        refine hmLookup_eq_none _ _ fun p hp => ?_
        obtain ⟨r, hr, rfl⟩ := List.mem_map.mp hp
        intro he
        exact habs (he ▸ List.mem_map_of_mem MysqlPkRow.tableName hr)
      rw [hnone]
  · intro rows ts
    refine ⟨by simp [mysql_set_index_key], fun i t h => ?_⟩
    have hget : (mysql_set_index_key rows ts)[i]?
        = some (match alGet (buildMap (rows.flatMap fun r =>
            (mysql_index_infos_of_row r).map fun x => (r.tableName, x)))
            t.table_name with
          | some indexes => { t with index_columns := indexes }
          | none => t) := by
      simp only [mysql_set_index_key]
      rw [List.getElem?_map, h]
      rfl
    refine ⟨_, hget, ?_, ?_, ?_, ?_⟩
    · cases alGet (buildMap (rows.flatMap fun r =>
        (mysql_index_infos_of_row r).map fun x => (r.tableName, x)))
        t.table_name <;> rfl
    · cases alGet (buildMap (rows.flatMap fun r =>
        (mysql_index_infos_of_row r).map fun x => (r.tableName, x)))
        t.table_name <;> rfl
    · cases alGet (buildMap (rows.flatMap fun r =>
        (mysql_index_infos_of_row r).map fun x => (r.tableName, x)))
        t.table_name <;> rfl
    · intro habs
      have hnone : alGet (buildMap (rows.flatMap fun r =>
          (mysql_index_infos_of_row r).map fun x => (r.tableName, x)))
          t.table_name = none := by
        refine alGet_buildMap_eq_none _ _ fun p hp => ?_
        obtain ⟨r, hr, hpin⟩ := List.mem_flatMap.mp hp
        obtain ⟨x, _, rfl⟩ := List.mem_map.mp hpin
        intro he
        exact habs (he ▸ List.mem_map_of_mem MysqlIndexRow.tableName hr)
      rw [hnone]
  · intro rows ts
    refine ⟨by simp [mysql_set_columns], fun i t h => ?_⟩
    have hget : (mysql_set_columns rows ts)[i]?
        = some (match alGet (mysql_get_columns rows
            ((ts.filter fun t => !t.pk_column.isEmpty).map
              fun t => (t.table_name, t.pk_column))) t.table_name with
          | some columns => { t with columns := columns }
          | none => t) := by
      simp only [mysql_set_columns]
      rw [List.getElem?_map, h]
      rfl
    refine ⟨_, hget, ?_, ?_, ?_, ?_⟩
    · cases alGet (mysql_get_columns rows
        ((ts.filter fun t => !t.pk_column.isEmpty).map
          fun t => (t.table_name, t.pk_column))) t.table_name <;> rfl
    · cases alGet (mysql_get_columns rows
        ((ts.filter fun t => !t.pk_column.isEmpty).map
          fun t => (t.table_name, t.pk_column))) t.table_name <;> rfl
    · cases alGet (mysql_get_columns rows
        ((ts.filter fun t => !t.pk_column.isEmpty).map
          fun t => (t.table_name, t.pk_column))) t.table_name <;> rfl
    · intro habs
      have hnone : alGet (mysql_get_columns rows
          ((ts.filter fun t => !t.pk_column.isEmpty).map
            fun t => (t.table_name, t.pk_column))) t.table_name = none := by
        refine alGet_buildMap_eq_none _ _ fun p hp => ?_
        obtain ⟨r, hr, rfl⟩ := List.mem_map.mp hp
        intro he
        exact habs (he ▸ List.mem_map_of_mem MysqlColumnRow.tableName hr)
      rw [hnone]
  · intro rows vs
    refine ⟨by simp [mysql_set_view_columns], fun i v h => ?_⟩
    have hget : (mysql_set_view_columns rows vs)[i]?
        = some (match alGet (mysql_get_columns rows []) v.view_name with
          | some columns => { v with columns := columns }
          | none => v) := by
      simp only [mysql_set_view_columns]
      rw [List.getElem?_map, h]
      rfl
    refine ⟨_, hget, ?_, ?_, ?_⟩
    · cases alGet (mysql_get_columns rows []) v.view_name <;> rfl
    · cases alGet (mysql_get_columns rows []) v.view_name <;> rfl
    · intro habs
      have hnone : alGet (mysql_get_columns rows []) v.view_name = none := by
        refine alGet_buildMap_eq_none _ _ fun p hp => ?_
        obtain ⟨r, hr, rfl⟩ := List.mem_map.mp hp
        intro he
        exact habs (he ▸ List.mem_map_of_mem MysqlColumnRow.tableName hr)
      rw [hnone]
  · intro rows ts
    refine ⟨by simp [pg_set_primary_key], fun i t h => ?_⟩
    have hget : (pg_set_primary_key rows ts)[i]?
        = some (match hmLookup (rows.map fun r =>
            (r.tableName, (r.columnName, r.pkName))) t.table_name with
          | some pk => { t with pk_name := pk.2, pk_column := pk.1 }
          | none => t) := by
      simp only [pg_set_primary_key]
      rw [List.getElem?_map, h]
      rfl
    refine ⟨_, hget, ?_, ?_, ?_, ?_⟩
    · cases hmLookup (rows.map fun r =>
        (r.tableName, (r.columnName, r.pkName))) t.table_name <;> rfl
    · cases hmLookup (rows.map fun r =>
        (r.tableName, (r.columnName, r.pkName))) t.table_name <;> rfl
    · cases hmLookup (rows.map fun r =>
        (r.tableName, (r.columnName, r.pkName))) t.table_name <;> rfl
    · intro habs
      have hnone : hmLookup (rows.map fun r =>
          (r.tableName, (r.columnName, r.pkName))) t.table_name = none := by
        refine hmLookup_eq_none _ _ fun p hp => ?_
        obtain ⟨r, hr, rfl⟩ := List.mem_map.mp hp
        intro he
        exact habs (he ▸ List.mem_map_of_mem PgPkRow.tableName hr)
      rw [hnone]
  · intro rows ts
    refine ⟨by simp [pg_set_index_key], fun i t h => ?_⟩
    have hget : (pg_set_index_key rows ts)[i]?
        = some (match alGet (buildMap (rows.map fun r =>
            (r.tableName, IndexInfo.mk r.columnName r.pkName r.indexdef
              false))) t.table_name with
          | some indexes => { t with index_columns := indexes }
          | none => t) := by
      simp only [pg_set_index_key]
      rw [List.getElem?_map, h]
      rfl
    refine ⟨_, hget, ?_, ?_, ?_, ?_⟩
    · cases alGet (buildMap (rows.map fun r =>
        (r.tableName, IndexInfo.mk r.columnName r.pkName r.indexdef false)))
        t.table_name <;> rfl
    · cases alGet (buildMap (rows.map fun r =>
        (r.tableName, IndexInfo.mk r.columnName r.pkName r.indexdef false)))
        t.table_name <;> rfl
    · cases alGet (buildMap (rows.map fun r =>
        (r.tableName, IndexInfo.mk r.columnName r.pkName r.indexdef false)))
        t.table_name <;> rfl
    · intro habs
      have hnone : alGet (buildMap (rows.map fun r =>
          (r.tableName, IndexInfo.mk r.columnName r.pkName r.indexdef
            false))) t.table_name = none := by
        refine alGet_buildMap_eq_none _ _ fun p hp => ?_
        obtain ⟨r, hr, rfl⟩ := List.mem_map.mp hp
        intro he
        exact habs (he ▸ List.mem_map_of_mem PgIndexRow.tableName hr)
      rw [hnone]
  · intro rows ts
    refine ⟨by simp [pg_set_columns], fun i t h => ?_⟩
    have hget : (pg_set_columns rows ts)[i]?
        = some (match alGet (buildMap (rows.map fun r =>
            (r.tableName, pg_column_of_row
              (ts.map fun t => (t.table_name, t.pk_column)) r)))
            t.table_name with
          | some columns => { t with columns := columns }
          | none => t) := by
      simp only [pg_set_columns]
      rw [List.getElem?_map, h]
      rfl
    refine ⟨_, hget, ?_, ?_, ?_, ?_⟩
    · cases alGet (buildMap (rows.map fun r =>
        (r.tableName, pg_column_of_row
          (ts.map fun t => (t.table_name, t.pk_column)) r)))
        t.table_name <;> rfl
    · cases alGet (buildMap (rows.map fun r =>
        (r.tableName, pg_column_of_row
          (ts.map fun t => (t.table_name, t.pk_column)) r)))
        t.table_name <;> rfl
    · cases alGet (buildMap (rows.map fun r =>
        (r.tableName, pg_column_of_row
          (ts.map fun t => (t.table_name, t.pk_column)) r)))
        t.table_name <;> rfl
    · intro habs
      have hnone : alGet (buildMap (rows.map fun r =>
          (r.tableName, pg_column_of_row
            (ts.map fun t => (t.table_name, t.pk_column)) r)))
          t.table_name = none := by
        refine alGet_buildMap_eq_none _ _ fun p hp => ?_
        obtain ⟨r, hr, rfl⟩ := List.mem_map.mp hp
        intro he
        exact habs (he ▸ List.mem_map_of_mem PgColumnRow.tableName hr)
      rw [hnone]
  · intro rows vs
    refine ⟨by simp [pg_set_view_columns], fun i v h => ?_⟩
    have hget : (pg_set_view_columns rows vs)[i]?
        = some (match alGet (buildMap (rows.map fun r =>
            (r.tableName, pg_view_column_of_row r))) v.view_name with
          | some columns => { v with columns := columns }
          | none => v) := by
      simp only [pg_set_view_columns]
      rw [List.getElem?_map, h]
      rfl
    refine ⟨_, hget, ?_, ?_, ?_⟩
    · cases alGet (buildMap (rows.map fun r =>
        (r.tableName, pg_view_column_of_row r))) v.view_name <;> rfl
    · cases alGet (buildMap (rows.map fun r =>
        (r.tableName, pg_view_column_of_row r))) v.view_name <;> rfl
    · intro habs
      have hnone : alGet (buildMap (rows.map fun r =>
          (r.tableName, pg_view_column_of_row r))) v.view_name = none := by
        refine alGet_buildMap_eq_none _ _ fun p hp => ?_
        obtain ⟨r, hr, rfl⟩ := List.mem_map.mp hp
        intro he
        exact habs (he ▸ List.mem_map_of_mem PgColumnRow.tableName hr)
      rw [hnone]

/-- C4: in every `Metadata` the pipeline returns (under the well-formedness
of real catalogs: pairwise-distinct table names, non-empty column names),
a table column's `is_pk` is true exactly when its name equals the owning
table's `pk_column`, and every view column has `is_pk = false` — for both
providers. -/
theorem pipeline_is_pk_iff_pk_column
    (mdb : MysqlDb) (pdb : PgDb) (m mp : Metadata)
    (hmnd : ∀ trs, mdb.tableRows = .ok trs →
      (trs.map MysqlTableRow.tableName).Nodup)
    (hmcn : ∀ crs, mdb.columnRows = .ok crs → ∀ r ∈ crs, r.columnName ≠ "")
    (hpnd : ∀ rels, pdb.rels = .ok rels →
      ((pg_get_tables rels).map TableInfo.table_name).Nodup)
    (hmy : get_metadata (mysqlProvider mdb) = .ok m)
    (hpg : get_metadata (pgProvider pdb) = .ok mp) :
    (∀ t ∈ m.tables, ∀ c ∈ t.columns,
      (c.is_pk = true ↔ c.name = t.pk_column)) ∧
    (∀ v ∈ m.views, ∀ c ∈ v.columns, c.is_pk = false) ∧
    (∀ t ∈ mp.tables, ∀ c ∈ t.columns,
      (c.is_pk = true ↔ c.name = t.pk_column)) ∧
    (∀ v ∈ mp.views, ∀ c ∈ v.columns, c.is_pk = false) := by
  rw [get_metadata_ok_iff] at hmy hpg
  obtain ⟨t0, t1, t2, t3, v0, v1, e0, e1, e2, e3, e4, e5, rfl⟩ := hmy
  obtain ⟨pt0, pt1, pt2, pt3, pv0, pv1, f0, f1, f2, f3, f4, f5, rfl⟩ := hpg
  simp only [mysqlProvider] at e0 e1 e2 e3 e4 e5
  simp only [pgProvider] at f0 f1 f2 f3 f4 f5
  cases htr : mdb.tableRows with
  | error e => rw [htr] at e0; simp [Except.map] at e0
  | ok trs =>
  rw [htr] at e0
  simp only [Except.map] at e0
  injection e0 with e0
  subst e0
  cases hpr : mdb.pkRows with
  | error e => rw [hpr] at e1; simp [Except.map] at e1
  | ok prs =>
  rw [hpr] at e1
  simp only [Except.map] at e1
  injection e1 with e1
  subst e1
  cases hir : mdb.indexRows with
  | error e => rw [hir] at e2; simp [Except.map] at e2
  | ok irs =>
  rw [hir] at e2
  simp only [Except.map] at e2
  injection e2 with e2
  subst e2
  cases hcr : mdb.columnRows with
  | error e => rw [hcr] at e3; simp [Except.map] at e3
  | ok crs =>
  rw [hcr] at e3
  simp only [Except.map] at e3
  injection e3 with e3
  subst e3
  cases hvr : mdb.viewRows with
  | error e => rw [hvr] at e4; simp [Except.map] at e4
  | ok vrs =>
  rw [hvr] at e4
  simp only [Except.map] at e4
  injection e4 with e4
  subst e4
  cases hvc : mdb.viewColumnRows with
  | error e => rw [hvc] at e5; simp [Except.map] at e5
  | ok vcrs =>
  rw [hvc] at e5
  simp only [Except.map] at e5
  injection e5 with e5
  subst e5
  cases hrel : pdb.rels with
  | error e => rw [hrel] at f0; simp [Except.map] at f0
  | ok rels =>
  rw [hrel] at f0
  simp only [Except.map] at f0
  injection f0 with f0
  subst f0
  cases hppr : pdb.pkRows with
  | error e => rw [hppr] at f1; simp [Except.map] at f1
  | ok prs2 =>
  rw [hppr] at f1
  simp only [Except.map] at f1
  injection f1 with f1
  subst f1
  cases hpir : pdb.indexRows with
  | error e => rw [hpir] at f2; simp [Except.map] at f2
  | ok irs2 =>
  rw [hpir] at f2
  simp only [Except.map] at f2
  injection f2 with f2
  subst f2
  cases hpcr : pdb.columnRows with
  | error e => rw [hpcr] at f3; simp [Except.map] at f3
  | ok crs2 =>
  rw [hpcr] at f3
  simp only [Except.map] at f3
  injection f3 with f3
  subst f3
  rw [hrel] at f4
  simp only [Except.map] at f4
  injection f4 with f4
  subst f4
  cases hpvc : pdb.viewColumnRows with
  | error e => rw [hpvc] at f5; simp [Except.map] at f5
  | ok vcrs2 =>
  rw [hpvc] at f5
  simp only [Except.map] at f5
  injection f5 with f5
  subst f5
  exact ⟨mysql_pipeline_tables_is_pk trs prs irs crs (hmnd trs htr)
      (hmcn crs hcr),
    mysql_pipeline_views_is_pk vcrs vrs,
    pg_pipeline_tables_is_pk rels prs2 irs2 crs2 (hpnd rels hrel),
    pg_pipeline_views_is_pk vcrs2 rels⟩

theorem pipeline_is_pk_iff_pk_column_witness :
    (((sampleMysqlMetadata.tables.getD 0
        (TableInfo.new "" "" none)).columns.getD 0
          sampleDefaultColumn).is_pk = true ↔
      ((sampleMysqlMetadata.tables.getD 0
        (TableInfo.new "" "" none)).columns.getD 0
          sampleDefaultColumn).name
        = (sampleMysqlMetadata.tables.getD 0
            (TableInfo.new "" "" none)).pk_column) ∧
    ((samplePgMetadata.views.getD 0
        (ViewsInfo.new "" "")).columns.getD 0
          sampleDefaultColumn).is_pk = false :=
  ⟨(pipeline_is_pk_iff_pk_column sampleMysqlDb samplePgDb
        sampleMysqlMetadata samplePgMetadata
        (by intro trs h; injection h with h; subst h; decide)
        (by intro crs h; injection h with h; subst h; decide)
        (by intro rels h; injection h with h; subst h; decide)
        rfl rfl).1
      (sampleMysqlMetadata.tables.getD 0 (TableInfo.new "" "" none))
      (by decide)
      ((sampleMysqlMetadata.tables.getD 0
        (TableInfo.new "" "" none)).columns.getD 0 sampleDefaultColumn)
      (by decide),
   (pipeline_is_pk_iff_pk_column sampleMysqlDb samplePgDb
        sampleMysqlMetadata samplePgMetadata
        (by intro trs h; injection h with h; subst h; decide)
        (by intro crs h; injection h with h; subst h; decide)
        (by intro rels h; injection h with h; subst h; decide)
        rfl rfl).2.2.2
      (samplePgMetadata.views.getD 0 (ViewsInfo.new "" ""))
      (by decide)
      ((samplePgMetadata.views.getD 0
        (ViewsInfo.new "" "")).columns.getD 0 sampleDefaultColumn)
      (by decide)⟩

/-- C8 counterexample: with a target whose configured schema is `"s1"` and
a catalog holding a kind-`r` relation in `"s1"`, `PgMeta::get_tables`
returns nothing — it does not return the relations of the configured
schema (the query hard-codes `nspname = 'public'`). -/
theorem pg_get_tables_ignores_configured_schema :
    (ConnConfig.mk "localhost" 5432 "postgres" "postgres" "postgres"
        (some "s1") .Postgresql).schema = some "s1" ∧
    pg_get_tables [⟨"s1", "t1", "r", none⟩] = [] ∧
    pg_tables_of_schema "s1" [⟨"s1", "t1", "r", none⟩]
      = [TableInfo.new "s1" "t1" none] ∧
    pg_get_tables [⟨"s1", "t1", "r", none⟩]
      ≠ pg_tables_of_schema "s1" [⟨"s1", "t1", "r", none⟩] := by decide

/-- C8 (amended): `PgMeta::get_tables` returns exactly the relations of
kind `r` in the fixed schema `public` — not the target's configured
schema, which it ignores — and `PgMeta::get_views` exactly the kind-`v`
relations of that same fixed schema. -/
theorem pg_relations_filtered_to_public (cat : List PgRel) :
    pg_get_tables cat = pg_tables_of_schema "public" cat ∧
    pg_get_views cat = pg_views_of_schema "public" cat ∧
    (∀ t : TableInfo, t ∈ pg_get_tables cat ↔
      ∃ r ∈ cat, r.schema = "public" ∧ r.relkind = "r" ∧
        t = TableInfo.new r.schema r.relname r.comment) ∧
    (∀ v : ViewsInfo, v ∈ pg_get_views cat ↔
      ∃ r ∈ cat, r.schema = "public" ∧ r.relkind = "v" ∧
        v = ViewsInfo.new r.schema r.relname) := by
  refine ⟨rfl, rfl, ?_, ?_⟩
  · intro t
    simp only [pg_get_tables, List.mem_map, List.mem_filter,
      Bool.and_eq_true, beq_iff_eq]
    constructor
    · rintro ⟨r, ⟨hr, h1, h2⟩, rfl⟩
      exact ⟨r, hr, h1, h2, rfl⟩
    · rintro ⟨r, hr, h1, h2, rfl⟩
      exact ⟨r, ⟨hr, h1, h2⟩, rfl⟩
  · intro v
    simp only [pg_get_views, List.mem_map, List.mem_filter,
      Bool.and_eq_true, beq_iff_eq]
    constructor
    · rintro ⟨r, ⟨hr, h1, h2⟩, rfl⟩
      exact ⟨r, hr, h1, h2, rfl⟩
    · rintro ⟨r, hr, h1, h2, rfl⟩
      exact ⟨r, ⟨hr, h1, h2⟩, rfl⟩

theorem pg_relations_filtered_to_public_witness :
    pg_get_tables [⟨"public", "t1", "r", none⟩, ⟨"s1", "t2", "r", none⟩]
      = pg_tables_of_schema "public"
          [⟨"public", "t1", "r", none⟩, ⟨"s1", "t2", "r", none⟩] :=
  (pg_relations_filtered_to_public
    [⟨"public", "t1", "r", none⟩, ⟨"s1", "t2", "r", none⟩]).1

/-- C7 (violated by the code): on a catalog cell whose direct text decode
and byte-sequence fallback both failed, the source's `Row::get` call site
panics (`try_get(..).unwrap()`), whereas the specified Value Decoder
returns a `DbException`; the two reads agree only on successfully decoded
cells. -/
theorem row_get_panics_on_decode_failure :
    row_get (.error "invalid utf-8 byte sequence") = .panicked ∧
    value_read_spec (.error "invalid utf-8 byte sequence")
      = .err (.DbException "invalid utf-8 byte sequence") ∧
    row_get (.error "invalid utf-8 byte sequence")
      ≠ value_read_spec (.error "invalid utf-8 byte sequence") ∧
    (∀ s : String, row_get (.ok s) = value_read_spec (.ok s)) :=
  ⟨rfl, rfl, by decide, fun _ => rfl⟩

theorem stages_frame_effect_witness :
    ∃ t', (mysql_set_index_key [⟨"s", "other", "ix", "a", "0"⟩]
        [TableInfo.new "s" "t1" none])[0]? = some t' ∧
      t'.schema = (TableInfo.new "s" "t1" none).schema ∧
      t'.table_name = (TableInfo.new "s" "t1" none).table_name ∧
      t'.comment = (TableInfo.new "s" "t1" none).comment ∧
      ((TableInfo.new "s" "t1" none).table_name
          ∉ [(⟨"s", "other", "ix", "a", "0"⟩ : MysqlIndexRow)].map
              MysqlIndexRow.tableName → t' = TableInfo.new "s" "t1" none) :=
  (stages_frame_effect.2.1 [⟨"s", "other", "ix", "a", "0"⟩]
      [TableInfo.new "s" "t1" none]).2 0
    (TableInfo.new "s" "t1" none) rfl

end DbMeta
